import Mathlib

/-!
# IsingSystem.cpp: a shallow embedding of the Metropolis engine

The member functions of `IsingSystem` are embedded as functions on an explicit
state record.

* C `int` values are integers (`Int`). Where an `int` result can leave the 32-bit
  range (the product `gridSize*gridSize` in `numSpins` and in the loop of `MCsweep`,
  and `seed += 1`) it is wrapped into the range by `wrapInt`, as the machine does.
  Elsewhere the operands bound the result: coordinates lie below `gridSize`, loop
  counters below their bound, and `numSweeps++` runs only below `endSweeps`.
  `%` is C's truncating remainder `Int.tmod`.
* C `double` values are exact rationals (`ℚ`), so no rounding is modelled; `exp` is a
  parameter.
* `grid` (an `int**` with `gridSize` rows of `gridSize` cells) is a map from index
  pairs to cells. Every access checks the indices against `gridSize` and returns
  `none` outside `[0, gridSize)`, where the C program has no defined behaviour.
* Whatever is declared outside `IsingSystem.cpp` (the constant `gridSize`, the
  generator `rgen`, `exp`, the ability to open a file) is a field of the environment
  record `Env`; the member function `setTemperature` is an argument of `Reset`.
-/

namespace IsingSystem

/-- An `int pos[2]`. -/
abbrev Pos := Int × Int

/-- The cells of `int** grid`. -/
abbrev Grid := Int → Int → Int

/-- Both indices address an allocated cell of the `gridSize` by `gridSize` grid. -/
def inRange (gridSize : Int) (pos : Pos) : Prop :=
  0 ≤ pos.1 ∧ pos.1 < gridSize ∧ 0 ≤ pos.2 ∧ pos.2 < gridSize

instance (gridSize : Int) (pos : Pos) : Decidable (inRange gridSize pos) := by
  unfold inRange
  exact inferInstance

/-- The counting loop `for (int i = start; i < ...; i++) body`, with `fuel`
iterations left to run. -/
def forLoopFrom {σ : Type} (body : Int → σ → Option σ) : Nat → Int → σ → Option σ
  | 0, _, s => some s
  | fuel + 1, i, s => (body i s).bind (fun s' => forLoopFrom body fuel (i + 1) s')

/-- The counting loop `for (int i = 0; i < bound; i++) body`. -/
def forLoop {σ : Type} (bound : Int) (body : Int → σ → Option σ) (s : σ) : Option σ :=
  forLoopFrom body bound.toNat 0 s

/-- `grid[pos[0]][pos[1]] = val` on the cell map. -/
def writeCell (grid : Grid) (pos : Pos) (val : Int) : Grid :=
  fun i j => if i = pos.1 ∧ j = pos.2 then val else grid i j

/-- `IsingSystem::setGrid`. -/
def setGrid (gridSize : Int) (grid : Grid) (pos : Pos) (val : Int) : Option Grid :=
  if inRange gridSize pos then some (writeCell grid pos val) else none

/-- `IsingSystem::readGrid`. -/
def readGrid (gridSize : Int) (grid : Grid) (pos : Pos) : Option Int :=
  if inRange gridSize pos then some (grid pos.1 pos.2) else none

/-- `IsingSystem::flipSpin`. -/
def flipSpin (gridSize : Int) (grid : Grid) (pos : Pos) : Option Grid :=
  if inRange gridSize pos then some (writeCell grid pos (-(grid pos.1 pos.2))) else none

/-- The value a 32-bit `int` holds when an arithmetic result is `x`: `x` wrapped into
`[-2147483648, 2147483648)` (two's complement). -/
def wrapInt (x : Int) : Int :=
  (x + 2147483648) % 4294967296 - 2147483648

/-- `IsingSystem::numSpins`: the product is an `int`. -/
def numSpins (gridSize : Int) : Int :=
  wrapInt (gridSize * gridSize)

/-- `IsingSystem::setPosNeighbour`: the `switch` has no `default`, so for any other
`val` the output array `setpos` keeps what it held. -/
def setPosNeighbour (gridSize : Int) (setpos pos : Pos) (val : Int) : Pos :=
  if val = 0 then (Int.tmod (pos.1 + 1) gridSize, pos.2)
  else if val = 1 then (Int.tmod (pos.1 - 1 + gridSize) gridSize, pos.2)
  else if val = 2 then (pos.1, Int.tmod (pos.2 + 1) gridSize)
  else if val = 3 then (pos.1, Int.tmod (pos.2 - 1 + gridSize) gridSize)
  else setpos

/-- What the uninitialised local `int nborPos[2]` holds before `setPosNeighbour`
fills it; it is overwritten for every direction `0..3`. -/
def uninitPos : Pos := (0, 0)

/-- `IsingSystem::computeLocalField`, reading `inverseTemperatureBeta` as `beta`. -/
def computeLocalField (gridSize : Int) (grid : Grid) (beta : ℚ) (pos : Pos) : Option ℚ :=
  (forLoop 4
    (fun i result =>
      (readGrid gridSize grid (setPosNeighbour gridSize uninitPos pos i)).bind
        (fun spin => some (result + (spin : ℚ))))
    (0 : ℚ)).bind
  (fun result => some (result * beta))

/-- One line of a CSV file: a header line as text, or a data row holding the three
values `printCsv` streams (the text `operator<<` prints for a `double` is not
modelled). -/
inductive CsvLine where
  | text (line : String)
  | row (indVar depVar : ℚ) (seed : Int)
  deriving DecidableEq

/-- The data members of `IsingSystem` that `IsingSystem.cpp` reads or writes, the
state of the generator `rgen`, and the streams and files it writes to. A file that
does not exist is `none`. The types of `M`, `N` and `dM` are declared outside
`IsingSystem.cpp`: `M` and `dM` are taken as `double` (`magnetisation` returns `M`
as a `double`), `N` as the `int` that `numSpins` returns. -/
structure System (R : Type) where
  grid : Grid
  inverseTemperatureBeta : ℚ
  slowNotFast : Int
  isActive : Int
  endSweeps : Int
  seed : Int
  endRuns : Int
  numSweeps : Int
  numRuns : Int
  M : ℚ
  N : Int
  dM : ℚ
  fileName : String
  rgen : R
  files : String → Option (List CsvLine)
  cout : List String
  cerr : List String

/-- What `IsingSystem.cpp` uses but does not define: the constant `gridSize`, the two
methods of `rgen` acting on the generator state, `exp` of the maths library, and
whether a file of a given name can be opened for writing. -/
structure Env (R : Type) where
  gridSize : Int
  randomInt : R → Int → Int × R
  random01 : R → ℚ × R
  exp : ℚ → ℚ
  canOpen : String → Bool

variable {R : Type}

/-- `IsingSystem::Reset`; `setTemperature` is declared outside `IsingSystem.cpp` and
is taken as an argument. -/
def Reset (env : Env R) (setTemperature : ℚ → System R → System R) (s : System R) :
    Option (System R) :=
  let initialTemp : ℚ := 4
  forLoop env.gridSize
    (fun i s1 =>
      forLoop env.gridSize
        (fun j s2 =>
          (setGrid env.gridSize s2.grid (i, j) (-1)).bind
            (fun g => some { s2 with grid := g }))
        s1)
    (setTemperature initialTemp s)

/-- `IsingSystem::attemptSpinFlip`. -/
def attemptSpinFlip (env : Env R) (s : System R) : Option (System R) :=
  let d0 := env.randomInt s.rgen env.gridSize
  let d1 := env.randomInt d0.2 env.gridSize
  let pos : Pos := (d0.1, d1.1)
  (computeLocalField env.gridSize s.grid s.inverseTemperatureBeta pos).bind (fun hloc =>
  (readGrid env.gridSize s.grid pos).bind (fun spin =>
    let dE : ℚ := 2 * hloc * (spin : ℚ)
    if dE < 0 then
      (flipSpin env.gridSize s.grid pos).bind
        (fun g => some { s with grid := g, rgen := d1.2 })
    else
      let d2 := env.random01 d1.2
      if d2.1 < env.exp (-dE) then
        (flipSpin env.gridSize s.grid pos).bind
          (fun g => some { s with grid := g, rgen := d2.2 })
      else
        some { s with rgen := d2.2 }))

/-- `IsingSystem::MCsweep`: the loop bound `gridSize*gridSize` is an `int` product. -/
def MCsweep (env : Env R) (s : System R) : Option (System R) :=
  forLoop (wrapInt (env.gridSize * env.gridSize)) (fun _ s1 => attemptSpinFlip env s1) s

/-- `IsingSystem::magnetisation`: the returned value and the state with the members
`M`, `N` and `dM` it assigns. -/
def magnetisation (env : Env R) (s : System R) : Option (ℚ × System R) :=
  (forLoop env.gridSize
    (fun i s1 =>
      forLoop env.gridSize
        (fun j s2 =>
          (readGrid env.gridSize s2.grid (i, j)).bind
            (fun spin => some { s2 with dM := (spin : ℚ), M := s2.M + (spin : ℚ) }))
        s1)
    { s with M := 0, N := numSpins env.gridSize }).bind
  (fun s3 => some (s3.M / (s3.N : ℚ), { s3 with M := s3.M / (s3.N : ℚ) }))

/-- `IsingSystem::getSeed`. -/
def getSeed (s : System R) : Int :=
  s.seed

/-- `IsingSystem::getFileName`; `std::to_string` of an `int` is its decimal text. -/
def getFileName (_indVar depVar : String) (seed : Int) : String :=
  "data/file_" ++ depVar ++ toString seed ++ ".csv"

/-- `IsingSystem::csvHeaders`: the file is created or truncated and receives the
header line; when it cannot be opened the stream insertions have no effect. -/
def csvHeaders (env : Env R) (s : System R) (indVar depVar : String) (seed : Int) :
    System R :=
  let filename := getFileName indVar depVar seed
  if env.canOpen filename then
    { s with files := fun name =>
        if name = filename then some [CsvLine.text (indVar ++ "," ++ depVar ++ "," ++ "seed")]
        else s.files name }
  else s

/-- `IsingSystem::printCsv`: one row is appended to the file (created when absent),
or the error message goes to `cerr` when the file cannot be opened. -/
def printCsv (env : Env R) (s : System R) (filename : String) (indVar depVar : ℚ)
    (seed : Int) : System R :=
  if env.canOpen filename then
    { s with files := fun name =>
        if name = filename then
          some ((s.files filename).getD [] ++ [CsvLine.row indVar depVar seed])
        else s.files name }
  else
    { s with cerr := s.cerr ++ ["Error: Unable to open the file for writing."] }

/-- `IsingSystem::calcVars`. -/
def calcVars (env : Env R) (s : System R) (filename : String) (numSweeps : Int) :
    Option (System R) :=
  if Int.tmod numSweeps 1 = 0 then
    (magnetisation env s).bind (fun r =>
      let s1 := { r.2 with M := r.1 }
      let s2 := { s1 with seed := getSeed s1 }
      some (printCsv env s2 filename (numSweeps : ℚ) s2.M s2.seed))
  else some s

/-- Modelled from the spec: `pauseRunning` is declared outside `IsingSystem.cpp`; the
spec has the machine go to `Paused` through the `isActive`/pause flag of the run
state, so the flag is cleared and nothing else changes. -/
def pauseRunning (s : System R) : System R :=
  { s with isActive := 0 }

/-- `IsingSystem::keepGoing`; `seed += 1` is an `int` addition, while `numSweeps++`
runs only when `numSweeps < endSweeps` and so stays within an `int`. -/
def keepGoing (env : Env R) (s : System R) : Option (System R) :=
  let s1 :=
    if s.numSweeps = 0 then
      let a := csvHeaders env s "sweeps" "magnetisation" s.seed
      let b := { a with fileName := getFileName "sweeps" "magnetisation" a.seed }
      { b with cout := b.cout ++ ["initial file name = " ++ b.fileName] }
    else s
  if s1.numSweeps < s1.endSweeps then
    let s2 := { s1 with fileName := getFileName "sweeps" "magnetisation" s1.seed }
    let s3 := { s2 with cout := s2.cout ++ ["file name = " ++ s2.fileName] }
    (calcVars env s3 s3.fileName s3.numSweeps).bind (fun s4 =>
    (MCsweep env s4).bind (fun s5 =>
      some { s5 with numSweeps := s5.numSweeps + 1 }))
  else if s1.numRuns < s1.endRuns then
    let s2 := { s1 with seed := wrapInt (s1.seed + 1) }
    some { s2 with numSweeps := 0 }
  else
    some (pauseRunning s1)

/-- `IsingSystem::Update`. -/
def Update (env : Env R) (s : System R) : Option (System R) :=
  keepGoing env s

/-! ## Vocabulary of the statements -/

/-- The generator returns a valid index whenever it is asked for one below `gridSize`. -/
def RngInRange (env : Env R) : Prop :=
  ∀ r : R, 0 ≤ (env.randomInt r env.gridSize).1 ∧
    (env.randomInt r env.gridSize).1 < env.gridSize

/-- Every allocated cell holds `-1` or `+1`. -/
def SpinsOk (gridSize : Int) (grid : Grid) : Prop :=
  ∀ i j : Int, inRange gridSize (i, j) → grid i j = -1 ∨ grid i j = 1

/-- The sum of all spins of the `gridSize` by `gridSize` lattice. -/
def spinSum (gridSize : Int) (grid : Grid) : Int :=
  ∑ i in Finset.range gridSize.toNat, ∑ j in Finset.range gridSize.toNat,
    grid (i : Int) (j : Int)

/-- The spin at the neighbour of `pos` in direction `d`. -/
def neighbourSpin (gridSize : Int) (grid : Grid) (pos : Pos) (d : Int) : Int :=
  grid (setPosNeighbour gridSize uninitPos pos d).1 (setPosNeighbour gridSize uninitPos pos d).2

/-- The local field in the spec's words: the sum of the spins of the four neighbours
(directions `0..3`, a cell counted once per direction that leads to it), scaled by β. -/
def localFieldSpec (gridSize : Int) (grid : Grid) (beta : ℚ) (pos : Pos) : ℚ :=
  beta * ((∑ d in Finset.range 4, neighbourSpin gridSize grid pos (d : Int) : Int) : ℚ)

/-- The site `attemptSpinFlip` draws in state `s`: two calls of `randomInt`. -/
def drawnSite (env : Env R) (s : System R) : Pos :=
  ((env.randomInt s.rgen env.gridSize).1,
   (env.randomInt (env.randomInt s.rgen env.gridSize).2 env.gridSize).1)

/-- The generator state once the site has been drawn. -/
def rgenAfterSite (env : Env R) (s : System R) : R :=
  (env.randomInt (env.randomInt s.rgen env.gridSize).2 env.gridSize).2

/-- The spin the drawn site holds before the attempt. -/
def siteSpin (env : Env R) (s : System R) : Int :=
  s.grid (drawnSite env s).1 (drawnSite env s).2

/-- The value `random01` returns when it is called right after the site draw. -/
def drawnU (env : Env R) (s : System R) : ℚ :=
  (env.random01 (rgenAfterSite env s)).1

/-- The energy change in the spec's words: `2 * localField(pos) * currentSpin(pos)` at
the drawn site, with the local field already scaled by β. -/
def energyChange (env : Env R) (s : System R) : ℚ :=
  2 * localFieldSpec env.gridSize s.grid s.inverseTemperatureBeta (drawnSite env s) *
    (siteSpin env s : ℚ)

/-- The value `magnetisation` computes for a lattice: the sum of all spins divided by
`numSpins(gridSize)`. It is the mean spin `(Σ spin) / N²` whenever `N*N` fits an `int`. -/
def meanSpin (gridSize : Int) (grid : Grid) : ℚ :=
  (spinSum gridSize grid : ℚ) / (numSpins gridSize : ℚ)

/-- The file `keepGoing` asks `getFileName` for in a run with seed `seed`. -/
def runFile (seed : Int) : String :=
  getFileName "sweeps" "magnetisation" seed

/-- The lattice `g'` is `g` with the spin at `pos` negated and every other cell as it was. -/
def NegatedAt (g g' : Grid) (pos : Pos) : Prop :=
  g' pos.1 pos.2 = -(g pos.1 pos.2) ∧ ∀ i j : Int, (i, j) ≠ pos → g' i j = g i j

/-- An environment for worked examples. The generator state counts the calls made:
call number `r` of `randomInt n` returns `r mod n`, call number `r` of `random01`
returns `(r mod 4) / 4`. `exp` is a rational stand-in that is exact at `0`. -/
def demoEnv (gridSize : Int) : Env Nat where
  gridSize := gridSize
  randomInt := fun r n => ((r : Int) % n, r + 1)
  random01 := fun r => (((r % 4 : Nat) : ℚ) / 4, r + 1)
  exp := fun x => if x ≤ 0 then 1 / (1 - x) else 1 + x
  canOpen := fun _ => true

/-- A `setTemperature` for worked examples: β becomes `1 / T`. -/
def demoSetTemperature (T : ℚ) (s : System Nat) : System Nat :=
  { s with inverseTemperatureBeta := 1 / T }

/-- A state for worked examples around the generator state `r`: all spins `-1`,
β = 1/4, the limits the constructor sets (`endSweeps = 10`, `endRuns = 1`), counters at
`0`, seed `7`, no files. -/
def demoSystemWith {R : Type} (r : R) : System R where
  grid := fun _ _ => -1
  inverseTemperatureBeta := 1 / 4
  slowNotFast := 1
  isActive := 1
  endSweeps := 10
  seed := 7
  endRuns := 1
  numSweeps := 0
  numRuns := 0
  M := 0
  N := 0
  dM := 0
  fileName := ""
  rgen := r
  files := fun _ => none
  cout := []
  cerr := []

/-- The example state for the generator of `demoEnv`, before any call. -/
def demoSystem : System Nat :=
  demoSystemWith 0

/-- The generator of `env` with a log: the generator state is paired with the list of
the values `randomInt` has returned so far, oldest first. -/
def withDrawLog (env : Env R) : Env (R × List Int) where
  gridSize := env.gridSize
  randomInt := fun rl n =>
    ((env.randomInt rl.1 n).1, ((env.randomInt rl.1 n).2, rl.2 ++ [(env.randomInt rl.1 n).1]))
  random01 := fun rl => ((env.random01 rl.1).1, ((env.random01 rl.1).2, rl.2))
  exp := env.exp
  canOpen := env.canOpen

/-- The sites a log of `randomInt` values stands for: `attemptSpinFlip` draws `pos[0]`
and then `pos[1]`. -/
def sitesOf : List Int → List Pos
  | a :: b :: rest => (a, b) :: sitesOf rest
  | _ => []

/-- The `randomInt` values that drawing the sites `sites` in turn produces. -/
def drawsOf : List Pos → List Int
  | [] => []
  | p :: rest => p.1 :: p.2 :: drawsOf rest

/-- An environment for worked examples on the 2 by 2 grid whose generator returns `0`
to every call. -/
def stuckEnv : Env Unit where
  gridSize := 2
  randomInt := fun r _ => (0, r)
  random01 := fun r => (0, r)
  exp := fun x => if x ≤ 0 then 1 / (1 - x) else 1 + x
  canOpen := fun _ => true

/-- The states that `Reset` followed by any sequence of `flipSpin`, `attemptSpinFlip`,
`MCsweep` and `keepGoing` calls can produce. -/
inductive Reachable (env : Env R) (setTemperature : ℚ → System R → System R) :
    System R → Prop where
  | byReset (s s' : System R) :
      Reset env setTemperature s = some s' → Reachable env setTemperature s'
  | byFlipSpin (s : System R) (pos : Pos) (g : Grid) :
      Reachable env setTemperature s → flipSpin env.gridSize s.grid pos = some g →
      Reachable env setTemperature { s with grid := g }
  | byAttemptSpinFlip (s s' : System R) :
      Reachable env setTemperature s → attemptSpinFlip env s = some s' →
      Reachable env setTemperature s'
  | byMCsweep (s s' : System R) :
      Reachable env setTemperature s → MCsweep env s = some s' →
      Reachable env setTemperature s'
  | byKeepGoing (s s' : System R) :
      Reachable env setTemperature s → keepGoing env s = some s' →
      Reachable env setTemperature s'

/-- The run-state invariant of the spec: `0 ≤ numSweeps ≤ endSweeps` and
`0 ≤ numRuns ≤ endRuns`. -/
def RunInv (s : System R) : Prop :=
  0 ≤ s.numSweeps ∧ s.numSweeps ≤ s.endSweeps ∧ 0 ≤ s.numRuns ∧ s.numRuns ≤ s.endRuns

/-- The state in which `keepGoing` falls through both tests to its last `else`, the
call of `pauseRunning`. -/
def ReachesPause (s : System R) : Prop :=
  ¬ s.numSweeps < s.endSweeps ∧ ¬ s.numRuns < s.endRuns

/-- The example state at infinite temperature: `demoSystem` with β = 0. -/
def hotSystem : System Nat :=
  { demoSystem with inverseTemperatureBeta := 0 }

/-- The example state at the end of its first run: `demoSystem` with `numSweeps = 10`. -/
def doneSystem : System Nat :=
  { demoSystem with numSweeps := 10 }

/-- The state `doneSystem` with the largest `int` as its seed. -/
def lastSeedSystem : System Nat :=
  { doneSystem with seed := 2147483647 }

/-- The state after `n` calls of `f`, each on the result of the one before. -/
def iterateM {σ : Type} (f : σ → Option σ) : Nat → σ → Option σ
  | 0, s => some s
  | n + 1, s => (f s).bind (fun s' => iterateM f n s')

end IsingSystem

namespace IsingSystem

variable {R : Type}

/-! ## Loops -/

/-- Loop rule: an invariant `P i` that each iteration carries from `i` to `i + 1`
holds at the exit, and the loop returns. -/
theorem forLoopFrom_rule {σ : Type} (body : Int → σ → Option σ) (P : Int → σ → Prop)
    (fuel : Nat) (start : Int) (s : σ) (h0 : P start s)
    (hstep : ∀ (i : Int) (t : σ), start ≤ i → i < start + fuel → P i t →
      ∃ t', body i t = some t' ∧ P (i + 1) t') :
    ∃ s', forLoopFrom body fuel start s = some s' ∧ P (start + fuel) s' := by
  induction fuel generalizing start s with
  | zero => exact ⟨s, rfl, by simpa using h0⟩
  | succ n ih =>
    obtain ⟨t, ht, hPt⟩ := hstep start s (le_refl _) (by push_cast; omega) h0
    obtain ⟨s', hs', hP'⟩ := ih (start + 1) t hPt (fun i u hi1 hi2 hPu =>
      hstep i u (by omega) (by push_cast at hi2 ⊢; omega) hPu)
    refine ⟨s', ?_, ?_⟩
    · simp [forLoopFrom, ht, hs']
    · have : start + ((n + 1 : Nat) : Int) = start + 1 + (n : Int) := by push_cast; ring
      rw [this]; exact hP'

/-- Loop rule for `forLoop` with a non-negative bound. -/
theorem forLoop_rule {σ : Type} (body : Int → σ → Option σ) (P : Int → σ → Prop)
    (bound : Int) (hb : 0 ≤ bound) (s : σ) (h0 : P 0 s)
    (hstep : ∀ (i : Int) (t : σ), 0 ≤ i → i < bound → P i t →
      ∃ t', body i t = some t' ∧ P (i + 1) t') :
    ∃ s', forLoop bound body s = some s' ∧ P bound s' := by
  have hcast : ((bound.toNat : Nat) : Int) = bound := Int.toNat_of_nonneg hb
  obtain ⟨s', h1, h2⟩ := forLoopFrom_rule body P bound.toNat 0 s h0
    (fun i t hi1 hi2 hP => hstep i t hi1 (by omega) hP)
  refine ⟨s', h1, ?_⟩
  simpa [hcast] using h2

/-- Loop rule for `forLoop` with any bound: a negative bound runs no iteration. -/
theorem forLoop_toNat_rule {σ : Type} (body : Int → σ → Option σ) (P : Int → σ → Prop)
    (bound : Int) (s : σ) (h0 : P 0 s)
    (hstep : ∀ (i : Int) (t : σ), 0 ≤ i → i < (bound.toNat : Int) → P i t →
      ∃ t', body i t = some t' ∧ P (i + 1) t') :
    ∃ s', forLoop bound body s = some s' ∧ P (bound.toNat : Int) s' := by
  obtain ⟨s', h1, h2⟩ := forLoopFrom_rule body P bound.toNat 0 s h0
    (fun i t hi1 hi2 hP => hstep i t hi1 (by omega) hP)
  exact ⟨s', h1, by simpa using h2⟩

/-- Loop rule for an invariant that does not mention the counter, with any bound. -/
theorem forLoop_inv {σ : Type} (body : Int → σ → Option σ) (P : σ → Prop)
    (bound : Int) (s : σ) (h0 : P s)
    (hstep : ∀ (i : Int) (t : σ), P t → ∃ t', body i t = some t' ∧ P t') :
    ∃ s', forLoop bound body s = some s' ∧ P s' :=
  forLoop_toNat_rule body (fun _ t => P t) bound s h0 (fun i t _ _ hP => hstep i t hP)

/-! ## Machine integers -/

/-- A result inside the 32-bit range is not changed by the wrap. -/
theorem wrapInt_of_range (x : Int) (h1 : -2147483648 ≤ x) (h2 : x < 2147483648) :
    wrapInt x = x := by
  unfold wrapInt
  omega

/-- The wrapped value is a 32-bit `int`. -/
theorem wrapInt_range (x : Int) : -2147483648 ≤ wrapInt x ∧ wrapInt x < 2147483648 := by
  unfold wrapInt
  omega

/-- For a grid size up to 46340 the product `gridSize*gridSize` fits an `int`. -/
theorem numSpins_of_fits (gridSize : Int) (h1 : 0 ≤ gridSize) (h2 : gridSize ≤ 46340) :
    numSpins gridSize = gridSize * gridSize := by
  unfold numSpins
  apply wrapInt_of_range
  · nlinarith
  · nlinarith

/-- At grid size 46341 the product `gridSize*gridSize` wraps to a negative `int`. -/
theorem numSpins_wraps : numSpins 46341 = -2147479015 := by
  decide

/-! ## The lattice -/

theorem readGrid_of_inRange {gridSize : Int} {pos : Pos} (grid : Grid)
    (h : inRange gridSize pos) : readGrid gridSize grid pos = some (grid pos.1 pos.2) := by
  simp [readGrid, h]

theorem flipSpin_of_inRange {gridSize : Int} {pos : Pos} (grid : Grid)
    (h : inRange gridSize pos) :
    flipSpin gridSize grid pos = some (writeCell grid pos (-(grid pos.1 pos.2))) := by
  simp [flipSpin, h]

theorem setGrid_of_inRange {gridSize : Int} {pos : Pos} (grid : Grid) (val : Int)
    (h : inRange gridSize pos) :
    setGrid gridSize grid pos val = some (writeCell grid pos val) := by
  simp [setGrid, h]

theorem writeCell_same (grid : Grid) (pos : Pos) (val : Int) :
    writeCell grid pos val pos.1 pos.2 = val := by
  simp [writeCell]

theorem writeCell_other (grid : Grid) (pos : Pos) (val : Int) (i j : Int)
    (h : (i, j) ≠ pos) : writeCell grid pos val i j = grid i j := by
  unfold writeCell
  split
  · rename_i hij
    exact absurd (Prod.ext hij.1 hij.2) h
  · rfl

theorem writeCell_writeCell (grid : Grid) (pos : Pos) (v w : Int) :
    writeCell (writeCell grid pos v) pos w = writeCell grid pos w := by
  funext i j
  unfold writeCell
  split <;> rfl

theorem writeCell_self (grid : Grid) (pos : Pos) :
    writeCell grid pos (grid pos.1 pos.2) = grid := by
  funext i j
  unfold writeCell
  split
  · rename_i hij
    rw [hij.1, hij.2]
  · rfl

/-- The C remainder agrees with the mathematical one on the values `setPosNeighbour`
feeds it. -/
theorem tmod_step (gridSize a : Int) (hN : 1 ≤ gridSize) (ha : 0 ≤ a) :
    Int.tmod a gridSize = a % gridSize :=
  Int.tmod_eq_emod ha (by omega)

theorem setPosNeighbour_inRange (gridSize : Int) (setpos pos : Pos) (d : Int)
    (hN : 1 ≤ gridSize) (hpos : inRange gridSize pos) (hd : 0 ≤ d ∧ d < 4) :
    inRange gridSize (setPosNeighbour gridSize setpos pos d) := by
  obtain ⟨h1, h2, h3, h4⟩ := hpos
  have hpos' : 0 < gridSize := by omega
  have e1 := tmod_step gridSize (pos.1 + 1) hN (by omega)
  have e2 := tmod_step gridSize (pos.1 - 1 + gridSize) hN (by omega)
  have e3 := tmod_step gridSize (pos.2 + 1) hN (by omega)
  have e4 := tmod_step gridSize (pos.2 - 1 + gridSize) hN (by omega)
  have b1 := Int.emod_nonneg (pos.1 + 1) (show gridSize ≠ 0 by omega)
  have b2 := Int.emod_lt_of_pos (pos.1 + 1) hpos'
  have b3 := Int.emod_nonneg (pos.1 - 1 + gridSize) (show gridSize ≠ 0 by omega)
  have b4 := Int.emod_lt_of_pos (pos.1 - 1 + gridSize) hpos'
  have b5 := Int.emod_nonneg (pos.2 + 1) (show gridSize ≠ 0 by omega)
  have b6 := Int.emod_lt_of_pos (pos.2 + 1) hpos'
  have b7 := Int.emod_nonneg (pos.2 - 1 + gridSize) (show gridSize ≠ 0 by omega)
  have b8 := Int.emod_lt_of_pos (pos.2 - 1 + gridSize) hpos'
  have hcases : d = 0 ∨ d = 1 ∨ d = 2 ∨ d = 3 := by omega
  rcases hcases with h | h | h | h <;> subst h <;>
    simp only [setPosNeighbour, inRange, e1, e2, e3, e4] <;> norm_num <;>
    refine ⟨?_, ?_, ?_, ?_⟩ <;>
    first
      | assumption
      | exact Int.emod_nonneg _ (by omega)
      | exact Int.emod_lt_of_pos _ hpos'

theorem computeLocalField_spec (gridSize : Int) (grid : Grid) (beta : ℚ) (pos : Pos)
    (hN : 1 ≤ gridSize) (hpos : inRange gridSize pos) :
    computeLocalField gridSize grid beta pos =
      some (localFieldSpec gridSize grid beta pos) := by
  have r0 := readGrid_of_inRange grid
    (setPosNeighbour_inRange gridSize uninitPos pos 0 hN hpos (by omega))
  have r1 := readGrid_of_inRange grid
    (setPosNeighbour_inRange gridSize uninitPos pos 1 hN hpos (by omega))
  have r2 := readGrid_of_inRange grid
    (setPosNeighbour_inRange gridSize uninitPos pos 2 hN hpos (by omega))
  have r3 := readGrid_of_inRange grid
    (setPosNeighbour_inRange gridSize uninitPos pos 3 hN hpos (by omega))
  have h4 : (4 : Int).toNat = 4 := rfl
  simp only [computeLocalField, forLoop, h4, forLoopFrom, zero_add, r0, Option.some_bind,
    localFieldSpec, neighbourSpin, Finset.sum_range_succ, Finset.sum_range_zero]
  norm_num [r1, r2, r3]
  ring

/-! ## Claims on the lattice -/

/-- C3: periodic boundary law of `setPosNeighbour`. For a grid size of at least 1 and
an in-range `(x, y)`, direction 0 gives `((x+1) mod N, y)`, direction 1 gives
`((x-1) mod N, y)`, direction 2 gives `(x, (y+1) mod N)` and direction 3 gives
`(x, (y-1) mod N)`, with the non-negative remainder; the `+x` neighbour of `(N-1, y)`
is `(0, y)`, the `-x` neighbour of `(0, y)` is `(N-1, y)`, and likewise in `y`. -/
theorem setPosNeighbour_periodic (gridSize x y : Int) (setpos : Pos) (hN : 1 ≤ gridSize)
    (hx : 0 ≤ x ∧ x < gridSize) (hy : 0 ≤ y ∧ y < gridSize) :
    setPosNeighbour gridSize setpos (x, y) 0 = ((x + 1) % gridSize, y) ∧
    setPosNeighbour gridSize setpos (x, y) 1 = ((x - 1) % gridSize, y) ∧
    setPosNeighbour gridSize setpos (x, y) 2 = (x, (y + 1) % gridSize) ∧
    setPosNeighbour gridSize setpos (x, y) 3 = (x, (y - 1) % gridSize) ∧
    (0 ≤ (x + 1) % gridSize ∧ (x + 1) % gridSize < gridSize) ∧
    (0 ≤ (x - 1) % gridSize ∧ (x - 1) % gridSize < gridSize) ∧
    (0 ≤ (y + 1) % gridSize ∧ (y + 1) % gridSize < gridSize) ∧
    (0 ≤ (y - 1) % gridSize ∧ (y - 1) % gridSize < gridSize) ∧
    setPosNeighbour gridSize setpos (gridSize - 1, y) 0 = (0, y) ∧
    setPosNeighbour gridSize setpos (0, y) 1 = (gridSize - 1, y) ∧
    setPosNeighbour gridSize setpos (x, gridSize - 1) 2 = (x, 0) ∧
    setPosNeighbour gridSize setpos (x, 0) 3 = (x, gridSize - 1) := by
  have hne : gridSize ≠ 0 := by omega
  have hpos : 0 < gridSize := by omega
  have e1 := tmod_step gridSize (x + 1) hN (by omega)
  have e2 := tmod_step gridSize (x - 1 + gridSize) hN (by omega)
  have e3 := tmod_step gridSize (y + 1) hN (by omega)
  have e4 := tmod_step gridSize (y - 1 + gridSize) hN (by omega)
  have e5 := tmod_step gridSize (gridSize - 1 + 1) hN (by omega)
  have e6 := tmod_step gridSize (0 - 1 + gridSize) hN (by omega)
  have w1 : (gridSize - 1 + 1) % gridSize = 0 := by
    rw [show gridSize - 1 + 1 = gridSize by ring]; exact Int.emod_self
  have w2 : (0 - 1 + gridSize) % gridSize = gridSize - 1 := by
    rw [show (0 : Int) - 1 + gridSize = gridSize - 1 by ring]
    exact Int.emod_eq_of_lt (by omega) (by omega)
  refine ⟨?_, ?_, ?_, ?_, ⟨Int.emod_nonneg _ hne, Int.emod_lt_of_pos _ hpos⟩,
    ⟨Int.emod_nonneg _ hne, Int.emod_lt_of_pos _ hpos⟩,
    ⟨Int.emod_nonneg _ hne, Int.emod_lt_of_pos _ hpos⟩,
    ⟨Int.emod_nonneg _ hne, Int.emod_lt_of_pos _ hpos⟩, ?_, ?_, ?_, ?_⟩
  · simp [setPosNeighbour, e1]
  · simp [setPosNeighbour, e2]
  · simp [setPosNeighbour, e3]
  · simp [setPosNeighbour, e4]
  · simp only [setPosNeighbour, if_true, e5, w1]
  · simp only [setPosNeighbour, e6, w2]; simp
  · simp only [setPosNeighbour, e5, w1]; simp
  · simp only [setPosNeighbour, e6, w2]; simp

/-- Witness of C3: the corner `(0, 0)` of the 3 by 3 grid. -/
theorem setPosNeighbour_periodic_witness :
    setPosNeighbour 3 uninitPos (0, 0) 0 = ((0 + 1) % 3, 0) ∧
    setPosNeighbour 3 uninitPos (0, 0) 1 = ((0 - 1) % 3, 0) ∧
    setPosNeighbour 3 uninitPos (0, 0) 2 = (0, (0 + 1) % 3) ∧
    setPosNeighbour 3 uninitPos (0, 0) 3 = (0, (0 - 1) % 3) ∧
    (0 ≤ ((0 : Int) + 1) % 3 ∧ ((0 : Int) + 1) % 3 < 3) ∧
    (0 ≤ ((0 : Int) - 1) % 3 ∧ ((0 : Int) - 1) % 3 < 3) ∧
    (0 ≤ ((0 : Int) + 1) % 3 ∧ ((0 : Int) + 1) % 3 < 3) ∧
    (0 ≤ ((0 : Int) - 1) % 3 ∧ ((0 : Int) - 1) % 3 < 3) ∧
    setPosNeighbour 3 uninitPos (3 - 1, 0) 0 = (0, 0) ∧
    setPosNeighbour 3 uninitPos (0, 0) 1 = (3 - 1, 0) ∧
    setPosNeighbour 3 uninitPos (0, 3 - 1) 2 = (0, 0) ∧
    setPosNeighbour 3 uninitPos (0, 0) 3 = (0, 3 - 1) :=
  setPosNeighbour_periodic 3 0 0 uninitPos (by decide) (by decide) (by decide)

/-- C4: `flipSpin` at an in-range `pos` negates the spin at `pos` and leaves every
other cell as it was, and a second `flipSpin` at `pos` gives back the original
lattice exactly. -/
theorem flipSpin_involution (gridSize : Int) (grid : Grid) (pos : Pos)
    (hpos : inRange gridSize pos) :
    ∃ g1 : Grid, flipSpin gridSize grid pos = some g1 ∧
      g1 pos.1 pos.2 = -(grid pos.1 pos.2) ∧
      (∀ i j : Int, (i, j) ≠ pos → g1 i j = grid i j) ∧
      flipSpin gridSize g1 pos = some grid := by
  refine ⟨writeCell grid pos (-(grid pos.1 pos.2)), flipSpin_of_inRange grid hpos,
    writeCell_same _ _ _, fun i j h => writeCell_other _ _ _ i j h, ?_⟩
  rw [flipSpin_of_inRange _ hpos, writeCell_same, writeCell_writeCell, neg_neg,
    writeCell_self]

/-- Witness of C4: the cell `(1, 2)` of the 3 by 3 lattice of `demoSystem`. -/
theorem flipSpin_involution_witness :
    inRange 3 (1, 2) ∧
    ∃ g1 : Grid, flipSpin 3 demoSystem.grid (1, 2) = some g1 ∧
      g1 1 2 = -(demoSystem.grid 1 2) ∧
      (∀ i j : Int, (i, j) ≠ ((1, 2) : Pos) → g1 i j = demoSystem.grid i j) ∧
      flipSpin 3 g1 (1, 2) = some demoSystem.grid :=
  ⟨by decide, flipSpin_involution 3 demoSystem.grid (1, 2) (by decide)⟩

/-! ## One Metropolis step -/

/-- What `attemptSpinFlip` returns when the drawn site is a cell of the grid. -/
theorem attemptSpinFlip_eq (env : Env R) (s : System R) (hN : 1 ≤ env.gridSize)
    (hpos : inRange env.gridSize (drawnSite env s)) :
    attemptSpinFlip env s = some (
      if energyChange env s < 0 then
        { s with grid := writeCell s.grid (drawnSite env s) (-(siteSpin env s)),
                 rgen := rgenAfterSite env s }
      else if drawnU env s < env.exp (-(energyChange env s)) then
        { s with grid := writeCell s.grid (drawnSite env s) (-(siteSpin env s)),
                 rgen := (env.random01 (rgenAfterSite env s)).2 }
      else
        { s with rgen := (env.random01 (rgenAfterSite env s)).2 }) := by
  have hf := computeLocalField_spec env.gridSize s.grid s.inverseTemperatureBeta
    (drawnSite env s) hN hpos
  have hr := readGrid_of_inRange s.grid hpos
  have hfl := flipSpin_of_inRange s.grid hpos
  unfold attemptSpinFlip
  simp only [drawnSite] at hf hr hfl hpos
  simp only [hf, hr, hfl, Option.some_bind, energyChange, siteSpin, drawnSite, drawnU,
    rgenAfterSite]
  split
  · rfl
  · split <;> rfl

theorem negatedAt_writeCell (grid : Grid) (pos : Pos) :
    NegatedAt grid (writeCell grid pos (-(grid pos.1 pos.2))) pos :=
  ⟨writeCell_same _ _ _, fun i j h => writeCell_other _ _ _ i j h⟩

theorem not_negatedAt_self (grid : Grid) (pos : Pos) (h : grid pos.1 pos.2 ≠ 0) :
    ¬ NegatedAt grid grid pos := by
  intro hneg
  have := hneg.1
  omega

/-- C1: the Metropolis rule of `attemptSpinFlip`. With `dE = 2 * localField(pos) *
spin(pos)` at the drawn site `pos`: if `dE < 0` the spin at `pos` is negated, whatever
`random01` would return and without calling it; otherwise it is negated when
`u < exp(-dE)` for the drawn `u`, and the lattice is unchanged when not. -/
theorem attemptSpinFlip_metropolis (env : Env R) (s : System R) (hN : 1 ≤ env.gridSize)
    (hpos : inRange env.gridSize (drawnSite env s)) :
    ∃ (hloc : ℚ) (s' : System R),
      computeLocalField env.gridSize s.grid s.inverseTemperatureBeta (drawnSite env s) =
        some hloc ∧
      attemptSpinFlip env s = some s' ∧
      (2 * hloc * (siteSpin env s : ℚ) < 0 →
        NegatedAt s.grid s'.grid (drawnSite env s) ∧
        s'.rgen = rgenAfterSite env s ∧
        ∀ f : R → ℚ × R, attemptSpinFlip { env with random01 := f } s = some s') ∧
      (¬ 2 * hloc * (siteSpin env s : ℚ) < 0 →
        (drawnU env s < env.exp (-(2 * hloc * (siteSpin env s : ℚ))) →
          NegatedAt s.grid s'.grid (drawnSite env s)) ∧
        (¬ drawnU env s < env.exp (-(2 * hloc * (siteSpin env s : ℚ))) →
          s'.grid = s.grid) ∧
        s'.rgen = (env.random01 (rgenAfterSite env s)).2) ∧
      (siteSpin env s ≠ 0 →
        (NegatedAt s.grid s'.grid (drawnSite env s) ↔
          (2 * hloc * (siteSpin env s : ℚ) < 0 ∨
            drawnU env s < env.exp (-(2 * hloc * (siteSpin env s : ℚ)))))) := by
  have heq := attemptSpinFlip_eq env s hN hpos
  have hE : energyChange env s =
      2 * localFieldSpec env.gridSize s.grid s.inverseTemperatureBeta (drawnSite env s) *
        (siteSpin env s : ℚ) := rfl
  rw [hE] at heq
  refine ⟨localFieldSpec env.gridSize s.grid s.inverseTemperatureBeta (drawnSite env s), _,
    computeLocalField_spec _ _ _ _ hN hpos, heq, ?_, ?_, ?_⟩
  · intro hneg
    rw [if_pos hneg]
    refine ⟨negatedAt_writeCell _ _, rfl, fun f => ?_⟩
    have h2 := attemptSpinFlip_eq { env with random01 := f } s hN hpos
    have hE2 : energyChange { env with random01 := f } s =
        2 * localFieldSpec env.gridSize s.grid s.inverseTemperatureBeta (drawnSite env s) *
          (siteSpin env s : ℚ) := rfl
    rw [hE2, if_pos hneg] at h2
    exact h2
  · intro hneg
    rw [if_neg hneg]
    refine ⟨fun hu => ?_, fun hu => ?_, ?_⟩
    · rw [if_pos hu]
      exact negatedAt_writeCell _ _
    · rw [if_neg hu]
    · split <;> rfl
  · intro hspin
    by_cases hneg : 2 * localFieldSpec env.gridSize s.grid s.inverseTemperatureBeta
        (drawnSite env s) * (siteSpin env s : ℚ) < 0
    · rw [if_pos hneg]
      exact ⟨fun _ => Or.inl hneg, fun _ => negatedAt_writeCell _ _⟩
    · rw [if_neg hneg]
      by_cases hu : drawnU env s < env.exp (-(2 * localFieldSpec env.gridSize s.grid
          s.inverseTemperatureBeta (drawnSite env s) * (siteSpin env s : ℚ)))
      · rw [if_pos hu]
        exact ⟨fun _ => Or.inr hu, fun _ => negatedAt_writeCell _ _⟩
      · rw [if_neg hu]
        constructor
        · intro h
          exact absurd h (not_negatedAt_self _ _ hspin)
        · intro h
          rcases h with h | h
          · exact absurd h hneg
          · exact absurd h hu

/-- Witness of C1: the first attempt of `demoEnv 3` on `demoSystem`, which draws the
site `(0, 1)`. -/
theorem attemptSpinFlip_metropolis_witness :
    (1 ≤ (demoEnv 3).gridSize ∧ inRange (demoEnv 3).gridSize (drawnSite (demoEnv 3) demoSystem)) ∧
    ∃ (hloc : ℚ) (s' : System Nat),
      computeLocalField (demoEnv 3).gridSize demoSystem.grid demoSystem.inverseTemperatureBeta (drawnSite (demoEnv 3) demoSystem) =
        some hloc ∧
      attemptSpinFlip (demoEnv 3) demoSystem = some s' ∧
      (2 * hloc * (siteSpin (demoEnv 3) demoSystem : ℚ) < 0 →
        NegatedAt demoSystem.grid s'.grid (drawnSite (demoEnv 3) demoSystem) ∧
        s'.rgen = rgenAfterSite (demoEnv 3) demoSystem ∧
        ∀ f : Nat → ℚ × Nat, attemptSpinFlip { (demoEnv 3) with random01 := f } demoSystem = some s') ∧
      (¬ 2 * hloc * (siteSpin (demoEnv 3) demoSystem : ℚ) < 0 →
        (drawnU (demoEnv 3) demoSystem < (demoEnv 3).exp (-(2 * hloc * (siteSpin (demoEnv 3) demoSystem : ℚ))) →
          NegatedAt demoSystem.grid s'.grid (drawnSite (demoEnv 3) demoSystem)) ∧
        (¬ drawnU (demoEnv 3) demoSystem < (demoEnv 3).exp (-(2 * hloc * (siteSpin (demoEnv 3) demoSystem : ℚ))) →
          s'.grid = demoSystem.grid) ∧
        s'.rgen = ((demoEnv 3).random01 (rgenAfterSite (demoEnv 3) demoSystem)).2) ∧
      (siteSpin (demoEnv 3) demoSystem ≠ 0 →
        (NegatedAt demoSystem.grid s'.grid (drawnSite (demoEnv 3) demoSystem) ↔
          (2 * hloc * (siteSpin (demoEnv 3) demoSystem : ℚ) < 0 ∨
            drawnU (demoEnv 3) demoSystem < (demoEnv 3).exp (-(2 * hloc * (siteSpin (demoEnv 3) demoSystem : ℚ)))))) :=
  ⟨⟨by decide, by decide⟩, attemptSpinFlip_metropolis (demoEnv 3) demoSystem (by decide) (by decide)⟩

theorem localFieldSpec_eq (gridSize : Int) (grid : Grid) (beta : ℚ) (pos : Pos) :
    localFieldSpec gridSize grid beta pos =
      beta * ((neighbourSpin gridSize grid pos 0 + neighbourSpin gridSize grid pos 1 +
        neighbourSpin gridSize grid pos 2 + neighbourSpin gridSize grid pos 3 : Int) : ℚ) := by
  simp [localFieldSpec, Finset.sum_range_succ]

/-- C2: for a grid size of at least 1 and an in-range `pos`, `computeLocalField(pos)`
is β times the sum of the spins at the four neighbours `setPosNeighbour(pos, 0..3)`,
a cell counted once per direction that leads to it (four times the only cell when
`N = 1`, twice each of two cells when `N = 2`); and `attemptSpinFlip` decides on
`dE = 2 * computeLocalField(pos) * spin(pos)` as it stands, with no division by a
temperature. -/
theorem computeLocalField_neighbours (env : Env R) (s : System R)
    (hN : 1 ≤ env.gridSize) :
    (∀ pos : Pos, inRange env.gridSize pos →
      computeLocalField env.gridSize s.grid s.inverseTemperatureBeta pos =
        some (s.inverseTemperatureBeta *
          ((neighbourSpin env.gridSize s.grid pos 0 + neighbourSpin env.gridSize s.grid pos 1 +
            neighbourSpin env.gridSize s.grid pos 2 + neighbourSpin env.gridSize s.grid pos 3 :
              Int) : ℚ))) ∧
    (env.gridSize = 1 → ∀ pos : Pos, inRange env.gridSize pos →
      computeLocalField env.gridSize s.grid s.inverseTemperatureBeta pos =
        some (s.inverseTemperatureBeta * ((4 * s.grid 0 0 : Int) : ℚ))) ∧
    (env.gridSize = 2 → ∀ pos : Pos, inRange env.gridSize pos →
      computeLocalField env.gridSize s.grid s.inverseTemperatureBeta pos =
        some (s.inverseTemperatureBeta *
          ((2 * s.grid (1 - pos.1) pos.2 + 2 * s.grid pos.1 (1 - pos.2) : Int) : ℚ))) ∧
    (inRange env.gridSize (drawnSite env s) →
      ∃ hloc : ℚ,
        computeLocalField env.gridSize s.grid s.inverseTemperatureBeta (drawnSite env s) =
          some hloc ∧
        attemptSpinFlip env s = some (
          if 2 * hloc * (siteSpin env s : ℚ) < 0 then
            { s with
                grid := writeCell s.grid (drawnSite env s) (-(siteSpin env s)),
                rgen := rgenAfterSite env s }
          else if drawnU env s < env.exp (-(2 * hloc * (siteSpin env s : ℚ))) then
            { s with
                grid := writeCell s.grid (drawnSite env s) (-(siteSpin env s)),
                rgen := (env.random01 (rgenAfterSite env s)).2 }
          else
            { s with rgen := (env.random01 (rgenAfterSite env s)).2 })) := by
  have t1 : Int.tmod 1 2 = 1 := rfl
  have t2 : Int.tmod 2 2 = 0 := rfl
  have t3 : Int.tmod 1 1 = 0 := rfl
  have t4 : Int.tmod 0 1 = 0 := rfl
  have t5 : Int.tmod 0 2 = 0 := rfl
  refine ⟨fun pos hpos => ?_, fun h1 pos hpos => ?_, fun h2 pos hpos => ?_, fun hpos => ?_⟩
  · rw [computeLocalField_spec _ _ _ _ hN hpos, localFieldSpec_eq]
  · rw [computeLocalField_spec _ _ _ _ hN hpos, localFieldSpec_eq]
    obtain ⟨a1, a2, a3, a4⟩ := hpos
    rw [h1] at a2 a4 ⊢
    have hx : pos.1 = 0 := by omega
    have hy : pos.2 = 0 := by omega
    simp only [neighbourSpin, setPosNeighbour, hx, hy]
    norm_num [t3, t4]
    left
    ring
  · rw [computeLocalField_spec _ _ _ _ hN hpos, localFieldSpec_eq]
    obtain ⟨a1, a2, a3, a4⟩ := hpos
    rw [h2] at a2 a4 ⊢
    have hx : pos.1 = 0 ∨ pos.1 = 1 := by omega
    have hy : pos.2 = 0 ∨ pos.2 = 1 := by omega
    rcases hx with hx | hx <;> rcases hy with hy | hy <;>
      simp only [neighbourSpin, setPosNeighbour, hx, hy] <;> norm_num [t1, t2, t5] <;>
      left <;> ring
  · have heq := attemptSpinFlip_eq env s hN hpos
    exact ⟨localFieldSpec env.gridSize s.grid s.inverseTemperatureBeta (drawnSite env s),
      computeLocalField_spec _ _ _ _ hN hpos, heq⟩

/-- Witness of C2: `demoEnv 3` on `demoSystem`. -/
theorem computeLocalField_neighbours_witness :
    1 ≤ (demoEnv 3).gridSize ∧
    (∀ pos : Pos, inRange (demoEnv 3).gridSize pos →
      computeLocalField (demoEnv 3).gridSize demoSystem.grid demoSystem.inverseTemperatureBeta pos =
        some (demoSystem.inverseTemperatureBeta *
          ((neighbourSpin (demoEnv 3).gridSize demoSystem.grid pos 0 + neighbourSpin (demoEnv 3).gridSize demoSystem.grid pos 1 +
            neighbourSpin (demoEnv 3).gridSize demoSystem.grid pos 2 + neighbourSpin (demoEnv 3).gridSize demoSystem.grid pos 3 :
              Int) : ℚ))) ∧
    ((demoEnv 3).gridSize = 1 → ∀ pos : Pos, inRange (demoEnv 3).gridSize pos →
      computeLocalField (demoEnv 3).gridSize demoSystem.grid demoSystem.inverseTemperatureBeta pos =
        some (demoSystem.inverseTemperatureBeta * ((4 * demoSystem.grid 0 0 : Int) : ℚ))) ∧
    ((demoEnv 3).gridSize = 2 → ∀ pos : Pos, inRange (demoEnv 3).gridSize pos →
      computeLocalField (demoEnv 3).gridSize demoSystem.grid demoSystem.inverseTemperatureBeta pos =
        some (demoSystem.inverseTemperatureBeta *
          ((2 * demoSystem.grid (1 - pos.1) pos.2 + 2 * demoSystem.grid pos.1 (1 - pos.2) : Int) : ℚ))) ∧
    (inRange (demoEnv 3).gridSize (drawnSite (demoEnv 3) demoSystem) →
      ∃ hloc : ℚ,
        computeLocalField (demoEnv 3).gridSize demoSystem.grid demoSystem.inverseTemperatureBeta (drawnSite (demoEnv 3) demoSystem) =
          some hloc ∧
        attemptSpinFlip (demoEnv 3) demoSystem = some (
          if 2 * hloc * (siteSpin (demoEnv 3) demoSystem : ℚ) < 0 then
            { demoSystem with
                grid := writeCell demoSystem.grid (drawnSite (demoEnv 3) demoSystem) (-(siteSpin (demoEnv 3) demoSystem)),
                rgen := rgenAfterSite (demoEnv 3) demoSystem }
          else if drawnU (demoEnv 3) demoSystem < (demoEnv 3).exp (-(2 * hloc * (siteSpin (demoEnv 3) demoSystem : ℚ))) then
            { demoSystem with
                grid := writeCell demoSystem.grid (drawnSite (demoEnv 3) demoSystem) (-(siteSpin (demoEnv 3) demoSystem)),
                rgen := ((demoEnv 3).random01 (rgenAfterSite (demoEnv 3) demoSystem)).2 }
          else
            { demoSystem with rgen := ((demoEnv 3).random01 (rgenAfterSite (demoEnv 3) demoSystem)).2 })) :=
  ⟨by decide, computeLocalField_neighbours (demoEnv 3) demoSystem (by decide)⟩

/-! ## Magnetisation -/

/-- The inner loop of `magnetisation` over row `i` adds the spins of that row to `M`. -/
theorem magnetisation_row (env : Env R) (s1 : System R) (i : Int) (hN : 0 ≤ env.gridSize)
    (hi : 0 ≤ i ∧ i < env.gridSize) :
    ∃ d : ℚ,
      forLoop env.gridSize
        (fun j s2 =>
          (readGrid env.gridSize s2.grid (i, j)).bind
            (fun spin => some { s2 with dM := (spin : ℚ), M := s2.M + (spin : ℚ) }))
        s1 =
      some { s1 with
        dM := d,
        M := s1.M + ((∑ b in Finset.range env.gridSize.toNat, s1.grid i (b : Int) : Int) : ℚ) } := by
  obtain ⟨t, ht, d, hd⟩ := forLoop_rule
    (fun j s2 =>
      (readGrid env.gridSize s2.grid (i, j)).bind
        (fun spin => some { s2 with dM := (spin : ℚ), M := s2.M + (spin : ℚ) }))
    (fun j t => ∃ d : ℚ, t = { s1 with
      dM := d,
      M := s1.M + ((∑ b in Finset.range j.toNat, s1.grid i (b : Int) : Int) : ℚ) })
    env.gridSize hN s1 ⟨s1.dM, by simp⟩
    (fun j t hj0 hjN hP => by
      obtain ⟨d, rfl⟩ := hP
      have hr : inRange env.gridSize (i, j) := ⟨hi.1, hi.2, hj0, hjN⟩
      refine ⟨_, by simp only [readGrid_of_inRange _ hr, Option.some_bind]; rfl, s1.grid i j, ?_⟩
      have hj : (j + 1).toNat = j.toNat + 1 := by omega
      have hcast : ((j.toNat : Nat) : Int) = j := Int.toNat_of_nonneg hj0
      simp only [hj, Finset.sum_range_succ, hcast]
      push_cast
      congr 1
      ring)
  exact ⟨d, by rw [ht, hd]⟩

/-- What `magnetisation` returns and stores: the mean spin goes to `M` and is returned,
`N` receives the number of spins, `dM` some value, and nothing else changes. -/
theorem magnetisation_eq (env : Env R) (s : System R) (hN : 0 ≤ env.gridSize) :
    ∃ d : ℚ, magnetisation env s =
      some ((spinSum env.gridSize s.grid : ℚ) / (numSpins env.gridSize : ℚ),
        { s with
          M := (spinSum env.gridSize s.grid : ℚ) / (numSpins env.gridSize : ℚ),
          N := numSpins env.gridSize,
          dM := d }) := by
  obtain ⟨t, ht, d, hd⟩ := forLoop_rule
    (fun i s1 =>
      forLoop env.gridSize
        (fun j s2 =>
          (readGrid env.gridSize s2.grid (i, j)).bind
            (fun spin => some { s2 with dM := (spin : ℚ), M := s2.M + (spin : ℚ) }))
        s1)
    (fun i t => ∃ d : ℚ, t = { s with
      N := numSpins env.gridSize,
      dM := d,
      M := ((∑ a in Finset.range i.toNat, ∑ b in Finset.range env.gridSize.toNat,
        s.grid (a : Int) (b : Int) : Int) : ℚ) })
    env.gridSize hN { s with M := 0, N := numSpins env.gridSize } ⟨s.dM, by simp⟩
    (fun i t hi0 hiN hP => by
      obtain ⟨d, rfl⟩ := hP
      obtain ⟨d', hd'⟩ := magnetisation_row env _ i hN ⟨hi0, hiN⟩
      refine ⟨_, hd', d', ?_⟩
      have hi : (i + 1).toNat = i.toNat + 1 := by omega
      have hcast : ((i.toNat : Nat) : Int) = i := Int.toNat_of_nonneg hi0
      simp only [hi, Finset.sum_range_succ, hcast]
      push_cast
      rfl)
  refine ⟨d, ?_⟩
  unfold magnetisation
  rw [ht, hd]
  simp [spinSum]

/-! ## Reset -/

/-- The inner loop of `Reset` over row `i` sets the cells of that row to `-1`. -/
theorem reset_row (env : Env R) (s1 : System R) (i : Int) (hN : 0 ≤ env.gridSize)
    (hi : 0 ≤ i ∧ i < env.gridSize) :
    forLoop env.gridSize
      (fun j s2 =>
        (setGrid env.gridSize s2.grid (i, j) (-1)).bind
          (fun g => some { s2 with grid := g }))
      s1 =
    some { s1 with
      grid := fun a b =>
        if a = i ∧ 0 ≤ b ∧ b < env.gridSize then -1 else s1.grid a b } := by
  obtain ⟨t, ht, hd⟩ := forLoop_rule
    (fun j s2 =>
      (setGrid env.gridSize s2.grid (i, j) (-1)).bind
        (fun g => some { s2 with grid := g }))
    (fun j t => t = { s1 with
      grid := fun a b =>
        if a = i ∧ 0 ≤ b ∧ b < j then -1 else s1.grid a b })
    env.gridSize hN s1
    (by
      show s1 = { s1 with grid := fun a b => if a = i ∧ 0 ≤ b ∧ b < 0 then -1 else s1.grid a b }
      have : (fun a b => if a = i ∧ 0 ≤ b ∧ b < 0 then -1 else s1.grid a b) = s1.grid := by
        funext a b
        rw [if_neg]
        omega
      rw [this])
    (fun j t hj0 hjN hP => by
      subst hP
      have hr : inRange env.gridSize (i, j) := ⟨hi.1, hi.2, hj0, hjN⟩
      refine ⟨_, by simp only [setGrid_of_inRange _ _ hr, Option.some_bind]; rfl, ?_⟩
      show _ = { s1 with grid := _ }
      congr 1
      funext a b
      simp only [writeCell]
      by_cases h1 : a = i ∧ b = j
      · rw [if_pos h1, if_pos ⟨h1.1, by omega, by omega⟩]
      · rw [if_neg h1]
        by_cases h2 : a = i ∧ 0 ≤ b ∧ b < j
        · rw [if_pos h2, if_pos ⟨h2.1, h2.2.1, by omega⟩]
        · rw [if_neg h2, if_neg]
          intro h3
          rcases h3 with ⟨h3, h4, h5⟩
          by_cases hb : b = j
          · exact h1 ⟨h3, hb⟩
          · exact h2 ⟨h3, h4, by omega⟩)
  rw [ht, hd]

/-- The two loops of `Reset` set every cell of the grid to `-1` and change nothing else. -/
theorem reset_loops (env : Env R) (s0 : System R) (hN : 0 ≤ env.gridSize) :
    forLoop env.gridSize
      (fun i s1 =>
        forLoop env.gridSize
          (fun j s2 =>
            (setGrid env.gridSize s2.grid (i, j) (-1)).bind
              (fun g => some { s2 with grid := g }))
          s1)
      s0 =
    some { s0 with
      grid := fun a b => if inRange env.gridSize (a, b) then -1 else s0.grid a b } := by
  obtain ⟨t, ht, hd⟩ := forLoop_rule
    (fun i s1 =>
      forLoop env.gridSize
        (fun j s2 =>
          (setGrid env.gridSize s2.grid (i, j) (-1)).bind
            (fun g => some { s2 with grid := g }))
        s1)
    (fun i t => t = { s0 with
      grid := fun a b =>
        if (0 ≤ a ∧ a < i) ∧ 0 ≤ b ∧ b < env.gridSize then -1 else s0.grid a b })
    env.gridSize hN s0
    (by
      show s0 = { s0 with grid := _ }
      have : (fun a b => if (0 ≤ a ∧ a < 0) ∧ 0 ≤ b ∧ b < env.gridSize then -1
          else s0.grid a b) = s0.grid := by
        funext a b
        rw [if_neg]
        omega
      rw [this])
    (fun i t hi0 hiN hP => by
      subst hP
      refine ⟨_, reset_row env _ i hN ⟨hi0, hiN⟩, ?_⟩
      show _ = { s0 with grid := _ }
      congr 1
      funext a b
      by_cases h1 : a = i ∧ 0 ≤ b ∧ b < env.gridSize
      · rw [if_pos h1, if_pos ⟨⟨by omega, by omega⟩, h1.2⟩]
      · rw [if_neg h1]
        show (if (0 ≤ a ∧ a < i) ∧ 0 ≤ b ∧ b < env.gridSize then (-1 : Int)
          else s0.grid a b) = _
        by_cases h2 : (0 ≤ a ∧ a < i) ∧ 0 ≤ b ∧ b < env.gridSize
        · rw [if_pos h2, if_pos ⟨⟨h2.1.1, by omega⟩, h2.2⟩]
        · rw [if_neg h2, if_neg]
          intro h3
          rcases h3 with ⟨⟨h3, h4⟩, h5⟩
          by_cases ha : a = i
          · exact h1 ⟨ha, h5⟩
          · exact h2 ⟨⟨h3, by omega⟩, h5⟩)
  rw [ht, hd]
  congr 2
  funext a b
  simp only [inRange]
  by_cases h : (0 ≤ a ∧ a < env.gridSize) ∧ 0 ≤ b ∧ b < env.gridSize
  · rw [if_pos h, if_pos ⟨h.1.1, h.1.2, h.2.1, h.2.2⟩]
  · rw [if_neg h, if_neg]
    intro h'
    exact h ⟨⟨h'.1, h'.2.1⟩, h'.2.2⟩

/-- `Reset` returns, and every cell of the grid is `-1` afterwards. -/
theorem reset_spec (env : Env R) (setTemperature : ℚ → System R → System R)
    (s : System R) (hN : 0 ≤ env.gridSize) :
    ∃ s' : System R, Reset env setTemperature s = some s' ∧
      ∀ a b : Int, inRange env.gridSize (a, b) → s'.grid a b = -1 := by
  refine ⟨_, reset_loops env (setTemperature 4 s) hN, fun a b hab => ?_⟩
  show (if inRange env.gridSize (a, b) then (-1 : Int) else _) = -1
  rw [if_pos hab]

/-! ## Sums of spins -/

theorem inRange_cast (gridSize : Int) (a b : Nat) (ha : a < gridSize.toNat)
    (hb : b < gridSize.toNat) : inRange gridSize ((a : Int), (b : Int)) := by
  refine ⟨?_, ?_, ?_, ?_⟩ <;> simp only <;> omega

theorem spinSum_all_down (gridSize : Int) (grid : Grid) (hN : 0 ≤ gridSize)
    (h : ∀ i j : Int, inRange gridSize (i, j) → grid i j = -1) :
    spinSum gridSize grid = -(gridSize * gridSize) := by
  unfold spinSum
  have hcast : ((gridSize.toNat : Nat) : Int) = gridSize := Int.toNat_of_nonneg hN
  have h1 : ∀ a ∈ Finset.range gridSize.toNat,
      (∑ b in Finset.range gridSize.toNat, grid (a : Int) (b : Int)) = -gridSize := by
    intro a ha
    have h2 : ∀ b ∈ Finset.range gridSize.toNat, grid (a : Int) (b : Int) = -1 := by
      intro b hb
      exact h _ _ (inRange_cast gridSize a b (Finset.mem_range.mp ha) (Finset.mem_range.mp hb))
    rw [Finset.sum_congr rfl h2]
    simp [hcast]
  rw [Finset.sum_congr rfl h1]
  simp [hcast]

theorem spinSum_bounds (gridSize : Int) (grid : Grid) (hN : 0 ≤ gridSize)
    (h : SpinsOk gridSize grid) :
    -(gridSize * gridSize) ≤ spinSum gridSize grid ∧
      spinSum gridSize grid ≤ gridSize * gridSize := by
  have hcast : ((gridSize.toNat : Nat) : Int) = gridSize := Int.toNat_of_nonneg hN
  have hcell : ∀ a ∈ Finset.range gridSize.toNat, ∀ b ∈ Finset.range gridSize.toNat,
      -1 ≤ grid (a : Int) (b : Int) ∧ grid (a : Int) (b : Int) ≤ 1 := by
    intro a ha b hb
    have := h _ _ (inRange_cast gridSize a b (Finset.mem_range.mp ha) (Finset.mem_range.mp hb))
    omega
  have hup : spinSum gridSize grid ≤
      ∑ _a in Finset.range gridSize.toNat, ∑ _b in Finset.range gridSize.toNat, (1 : Int) :=
    Finset.sum_le_sum (fun a ha => Finset.sum_le_sum (fun b hb => (hcell a ha b hb).2))
  have hlo : (∑ _a in Finset.range gridSize.toNat, ∑ _b in Finset.range gridSize.toNat,
      (-1 : Int)) ≤ spinSum gridSize grid :=
    Finset.sum_le_sum (fun a ha => Finset.sum_le_sum (fun b hb => (hcell a ha b hb).1))
  simp [hcast] at hup hlo
  exact ⟨hlo, hup⟩

/-! ## Claims on Reset and the magnetisation -/

/-- The quotient `magnetisation` computes on an all-down lattice at grid size 46341,
where `numSpins` has wrapped. -/
theorem meanSpin_wrapped (grid : Grid)
    (h : ∀ i j : Int, inRange 46341 (i, j) → grid i j = -1) :
    (spinSum 46341 grid : ℚ) / (numSpins 46341 : ℚ) = 2147488281 / 2147479015 := by
  rw [spinSum_all_down 46341 grid (by decide) h, numSpins_wraps]
  norm_num

/-- C6 as stated fails at grid size 46341: `Reset` sets every cell to `-1`, but
`numSpins` returns the wrapped product `-2147479015` and `magnetisation()` returns
`2147488281 / 2147479015`, not `-1`. -/
theorem reset_magnetisation_overflow :
    ∃ (s1 s2 : System Nat) (m : ℚ),
      Reset (demoEnv 46341) demoSetTemperature demoSystem = some s1 ∧
      (∀ i j : Int, inRange 46341 (i, j) → s1.grid i j = -1) ∧
      magnetisation (demoEnv 46341) s1 = some (m, s2) ∧
      m = 2147488281 / 2147479015 ∧ m ≠ -1 := by
  obtain ⟨s1, h1, hcells⟩ := reset_spec (demoEnv 46341) demoSetTemperature demoSystem
    (by decide)
  obtain ⟨d, hm⟩ := magnetisation_eq (demoEnv 46341) s1 (by decide)
  have hval := meanSpin_wrapped s1.grid hcells
  refine ⟨s1, _, _, h1, hcells, hm, hval, ?_⟩
  have hval' : (spinSum (demoEnv 46341).gridSize s1.grid : ℚ) /
      (numSpins (demoEnv 46341).gridSize : ℚ) = 2147488281 / 2147479015 := hval
  rw [hval']
  norm_num

/-- C6 as amended: for a grid size of at least 1, `Reset` sets every one of the `N*N`
cells to `-1`; when moreover the grid size is at most 46340, so that `N*N` fits the
`int` that `numSpins` returns, `magnetisation()` called right afterwards returns
exactly `-1`. -/
theorem reset_magnetisation (env : Env R) (setTemperature : ℚ → System R → System R)
    (s : System R) (hN : 1 ≤ env.gridSize) :
    ∃ s1 : System R, Reset env setTemperature s = some s1 ∧
      (∀ i j : Int, inRange env.gridSize (i, j) → s1.grid i j = -1) ∧
      (env.gridSize ≤ 46340 → ∃ s2 : System R, magnetisation env s1 = some (-1, s2)) := by
  obtain ⟨s1, h1, hcells⟩ := reset_spec env setTemperature s (by omega)
  refine ⟨s1, h1, hcells, fun hfit => ?_⟩
  obtain ⟨d, hm⟩ := magnetisation_eq env s1 (by omega)
  have hsum := spinSum_all_down env.gridSize s1.grid (by omega) hcells
  have hne : ((env.gridSize * env.gridSize : Int) : ℚ) ≠ 0 := by
    have : env.gridSize * env.gridSize ≠ 0 := by positivity
    exact_mod_cast this
  have hval : (spinSum env.gridSize s1.grid : ℚ) / (numSpins env.gridSize : ℚ) = -1 := by
    rw [numSpins_of_fits env.gridSize (by omega) hfit, hsum, Int.cast_neg, neg_div,
      div_self hne]
  rw [hval] at hm
  exact ⟨_, hm⟩

/-- Witness of the amended C6: `Reset` of `demoSystem` on the 3 by 3 grid, followed by
`magnetisation()`. -/
theorem reset_magnetisation_witness :
    1 ≤ (demoEnv 3).gridSize ∧ (demoEnv 3).gridSize ≤ 46340 ∧
    ∃ s1 : System Nat, Reset (demoEnv 3) demoSetTemperature demoSystem = some s1 ∧
      (∀ i j : Int, inRange (demoEnv 3).gridSize (i, j) → s1.grid i j = -1) ∧
      ∃ s2 : System Nat, magnetisation (demoEnv 3) s1 = some (-1, s2) := by
  obtain ⟨s1, h1, h2, h3⟩ :=
    reset_magnetisation (demoEnv 3) demoSetTemperature demoSystem (by decide)
  exact ⟨by decide, by decide, s1, h1, h2, h3 (by decide)⟩

/-- C7 as stated fails at grid size 46341: on the all-down lattice of `demoSystem`,
whose spins are all in `{-1, +1}`, `magnetisation()` divides the sum by the wrapped
product and returns `2147488281 / 2147479015`, which is neither the sum of the spins
divided by `N*N` nor at most `1`. -/
theorem magnetisation_mean_overflow :
    ∃ (m : ℚ) (s' : System Nat),
      magnetisation (demoEnv 46341) demoSystem = some (m, s') ∧
      SpinsOk 46341 demoSystem.grid ∧
      m ≠ (spinSum 46341 demoSystem.grid : ℚ) / (((46341 : Int) * 46341 : Int) : ℚ) ∧
      ¬ m ≤ 1 := by
  obtain ⟨d, hm⟩ := magnetisation_eq (demoEnv 46341) demoSystem (by decide)
  have hdown : ∀ i j : Int, inRange 46341 (i, j) → demoSystem.grid i j = -1 :=
    fun _ _ _ => rfl
  have hval : (spinSum (demoEnv 46341).gridSize demoSystem.grid : ℚ) /
      (numSpins (demoEnv 46341).gridSize : ℚ) = 2147488281 / 2147479015 :=
    meanSpin_wrapped demoSystem.grid hdown
  refine ⟨_, _, hm, fun i j _ => Or.inl rfl, ?_, ?_⟩
  · rw [hval, spinSum_all_down 46341 demoSystem.grid (by decide) hdown]
    norm_num
  · rw [hval]
    norm_num

/-- C7 as amended: for a grid size of at least 1, `magnetisation()` leaves the lattice
(and everything but the members `M`, `N`, `dM`) unchanged; when moreover the grid size
is at most 46340, so that `N*N` fits the `int` that `numSpins` returns, it returns the
sum of all `N*N` spins divided by `N*N`, and that lies in `[-1, 1]` when every spin is
`-1` or `+1`. -/
theorem magnetisation_mean (env : Env R) (s : System R) (hN : 1 ≤ env.gridSize) :
    ∃ (m : ℚ) (s' : System R), magnetisation env s = some (m, s') ∧
      s'.grid = s.grid ∧
      (∃ d : ℚ, s' = { s with M := m, N := numSpins env.gridSize, dM := d }) ∧
      (env.gridSize ≤ 46340 →
        numSpins env.gridSize = env.gridSize * env.gridSize ∧
        m = (spinSum env.gridSize s.grid : ℚ) / ((env.gridSize * env.gridSize : Int) : ℚ) ∧
        (SpinsOk env.gridSize s.grid → -1 ≤ m ∧ m ≤ 1)) := by
  obtain ⟨d, hm⟩ := magnetisation_eq env s (by omega)
  refine ⟨_, _, hm, rfl, ⟨d, rfl⟩, fun hfit => ?_⟩
  have hfits := numSpins_of_fits env.gridSize (by omega) hfit
  refine ⟨hfits, by rw [hfits], fun hok => ?_⟩
  rw [hfits]
  obtain ⟨hlo, hup⟩ := spinSum_bounds env.gridSize s.grid (by omega) hok
  have hpos : (0 : ℚ) < ((env.gridSize * env.gridSize : Int) : ℚ) := by
    have : 0 < env.gridSize * env.gridSize := by positivity
    exact_mod_cast this
  have hlo' : -((env.gridSize * env.gridSize : Int) : ℚ) ≤ (spinSum env.gridSize s.grid : ℚ) := by
    exact_mod_cast hlo
  have hup' : (spinSum env.gridSize s.grid : ℚ) ≤ ((env.gridSize * env.gridSize : Int) : ℚ) := by
    exact_mod_cast hup
  constructor
  · rw [le_div_iff₀ hpos]
    linarith
  · rw [div_le_iff₀ hpos]
    linarith

/-- Witness of the amended C7: the magnetisation of `demoSystem`, whose spins are all
`-1`, on the 3 by 3 grid. -/
theorem magnetisation_mean_witness :
    1 ≤ (demoEnv 3).gridSize ∧ (demoEnv 3).gridSize ≤ 46340 ∧
    SpinsOk (demoEnv 3).gridSize demoSystem.grid ∧
    ∃ (m : ℚ) (s' : System Nat), magnetisation (demoEnv 3) demoSystem = some (m, s') ∧
      s'.grid = demoSystem.grid ∧
      (∃ d : ℚ, s' = { demoSystem with M := m, N := numSpins (demoEnv 3).gridSize, dM := d }) ∧
      numSpins (demoEnv 3).gridSize = (demoEnv 3).gridSize * (demoEnv 3).gridSize ∧
      m = (spinSum (demoEnv 3).gridSize demoSystem.grid : ℚ) /
        (((demoEnv 3).gridSize * (demoEnv 3).gridSize : Int) : ℚ) ∧
      -1 ≤ m ∧ m ≤ 1 := by
  have hok : SpinsOk (demoEnv 3).gridSize demoSystem.grid := fun _ _ _ => Or.inl rfl
  obtain ⟨m, s', h1, h2, h3, h4⟩ := magnetisation_mean (demoEnv 3) demoSystem (by decide)
  obtain ⟨h5, h6, h7⟩ := h4 (by decide)
  exact ⟨by decide, by decide, hok, m, s', h1, h2, h3, h5, h6, h7 hok⟩

/-! ## Sweeps -/

/-- `attemptSpinFlip` reads only the lattice, β and the generator, and writes only the
lattice and the generator: on a state `t` with the same three it does to `t` what it
does to `s`. -/
theorem attemptSpinFlip_congr (env : Env R) (s t : System R) (hg : t.grid = s.grid)
    (hb : t.inverseTemperatureBeta = s.inverseTemperatureBeta) (hr : t.rgen = s.rgen) :
    attemptSpinFlip env t =
      (attemptSpinFlip env s).map (fun s' => { t with grid := s'.grid, rgen := s'.rgen }) := by
  unfold attemptSpinFlip
  simp only [hg, hb, hr]
  cases computeLocalField env.gridSize s.grid s.inverseTemperatureBeta
      ((env.randomInt s.rgen env.gridSize).1,
        (env.randomInt (env.randomInt s.rgen env.gridSize).2 env.gridSize).1) with
  | none => rfl
  | some hloc =>
    cases readGrid env.gridSize s.grid
        ((env.randomInt s.rgen env.gridSize).1,
          (env.randomInt (env.randomInt s.rgen env.gridSize).2 env.gridSize).1) with
    | none => rfl
    | some spin =>
      simp only [Option.some_bind]
      cases flipSpin env.gridSize s.grid
          ((env.randomInt s.rgen env.gridSize).1,
            (env.randomInt (env.randomInt s.rgen env.gridSize).2 env.gridSize).1) with
      | none =>
        split
        · rfl
        · split <;> rfl
      | some g =>
        split
        · rfl
        · split <;> rfl

/-- The frame of `attemptSpinFlip`: only the lattice and the generator can change. -/
theorem attemptSpinFlip_frame (env : Env R) (s s' : System R)
    (h : attemptSpinFlip env s = some s') :
    s' = { s with grid := s'.grid, rgen := s'.rgen } := by
  have := attemptSpinFlip_congr env s s rfl rfl rfl
  rw [h] at this
  simp only [Option.map_some'] at this
  exact Option.some.inj this

/-- A sweep loop reads and writes the same parts of the state as its body. -/
theorem sweepLoop_congr (env : Env R) (fuel : Nat) (i : Int) (s t : System R)
    (hg : t.grid = s.grid) (hb : t.inverseTemperatureBeta = s.inverseTemperatureBeta)
    (hr : t.rgen = s.rgen) :
    forLoopFrom (fun _ s1 => attemptSpinFlip env s1) fuel i t =
      (forLoopFrom (fun _ s1 => attemptSpinFlip env s1) fuel i s).map
        (fun s' => { t with grid := s'.grid, rgen := s'.rgen }) := by
  induction fuel generalizing i s t with
  | zero =>
    simp only [forLoopFrom, Option.map_some']
    cases t
    simp only at hg hb hr
    subst hg hr
    rfl
  | succ n ih =>
    simp only [forLoopFrom]
    rw [attemptSpinFlip_congr env s t hg hb hr]
    cases h1 : attemptSpinFlip env s with
    | none => rfl
    | some s1 =>
      have hf := attemptSpinFlip_frame env s s1 h1
      simp only [Option.map_some', Option.some_bind]
      rw [ih (i + 1) s1 { t with grid := s1.grid, rgen := s1.rgen } rfl
        (by rw [hf]; exact hb) rfl]

/-- `MCsweep` on a state `t` with the lattice, β and generator of `s` does to `t` what
it does to `s`. -/
theorem MCsweep_congr (env : Env R) (s t : System R) (hg : t.grid = s.grid)
    (hb : t.inverseTemperatureBeta = s.inverseTemperatureBeta) (hr : t.rgen = s.rgen) :
    MCsweep env t =
      (MCsweep env s).map (fun s' => { t with grid := s'.grid, rgen := s'.rgen }) :=
  sweepLoop_congr env _ 0 s t hg hb hr

/-- The frame of `MCsweep`: only the lattice and the generator can change. -/
theorem MCsweep_frame (env : Env R) (s s' : System R) (h : MCsweep env s = some s') :
    s' = { s with grid := s'.grid, rgen := s'.rgen } := by
  have := MCsweep_congr env s s rfl rfl rfl
  rw [h] at this
  simp only [Option.map_some'] at this
  exact Option.some.inj this

/-- A loop whose body ignores the counter is the iteration of the body. -/
theorem forLoopFrom_eq_iterateM {σ : Type} (f : σ → Option σ) (fuel : Nat) (i : Int) (s : σ) :
    forLoopFrom (fun _ s1 => f s1) fuel i s = iterateM f fuel s := by
  induction fuel generalizing i s with
  | zero => rfl
  | succ n ih =>
    simp only [forLoopFrom, iterateM]
    cases f s with
    | none => rfl
    | some s1 => simp only [Option.some_bind, ih]

/-! ## The generator contract and the spin invariant -/

theorem gridSize_pos_of_rng (env : Env R) (hrng : RngInRange env) (r : R) :
    1 ≤ env.gridSize := by
  have := hrng r
  omega

theorem drawnSite_inRange (env : Env R) (hrng : RngInRange env) (s : System R) :
    inRange env.gridSize (drawnSite env s) :=
  ⟨(hrng s.rgen).1, (hrng s.rgen).2, (hrng (env.randomInt s.rgen env.gridSize).2).1,
    (hrng (env.randomInt s.rgen env.gridSize).2).2⟩

theorem spinsOk_flip (gridSize : Int) (grid : Grid) (pos : Pos) (h : SpinsOk gridSize grid)
    (hpos : inRange gridSize pos) :
    SpinsOk gridSize (writeCell grid pos (-(grid pos.1 pos.2))) := by
  intro i j hij
  by_cases hc : (i, j) = pos
  · have h1 := h pos.1 pos.2 hpos
    have h2 : writeCell grid pos (-(grid pos.1 pos.2)) i j = -(grid pos.1 pos.2) := by
      rw [← hc]
      exact writeCell_same grid (i, j) _
    rw [h2]
    omega
  · rw [writeCell_other _ _ _ _ _ hc]
    exact h i j hij

/-- Under the generator contract `attemptSpinFlip` returns, and it keeps every spin in
`{-1, +1}`. -/
theorem attemptSpinFlip_total (env : Env R) (hrng : RngInRange env) (s : System R) :
    ∃ s' : System R, attemptSpinFlip env s = some s' ∧
      (SpinsOk env.gridSize s.grid → SpinsOk env.gridSize s'.grid) := by
  have hN := gridSize_pos_of_rng env hrng s.rgen
  have hpos := drawnSite_inRange env hrng s
  refine ⟨_, attemptSpinFlip_eq env s hN hpos, fun hok => ?_⟩
  split
  · exact spinsOk_flip _ _ _ hok hpos
  · split
    · exact spinsOk_flip _ _ _ hok hpos
    · exact hok

/-- Under the generator contract `MCsweep` returns, and it keeps every spin in
`{-1, +1}`. -/
theorem MCsweep_total (env : Env R) (hrng : RngInRange env) (s : System R) :
    ∃ s' : System R, MCsweep env s = some s' ∧
      (SpinsOk env.gridSize s.grid → SpinsOk env.gridSize s'.grid) := by
  have hN := gridSize_pos_of_rng env hrng s.rgen
  obtain ⟨s', h1, h2⟩ := forLoop_inv (fun _ s1 => attemptSpinFlip env s1)
    (fun t => SpinsOk env.gridSize s.grid → SpinsOk env.gridSize t.grid)
    (wrapInt (env.gridSize * env.gridSize)) s (fun h => h)
    (fun _ t hP => by
      obtain ⟨t', ht', hok⟩ := attemptSpinFlip_total env hrng t
      exact ⟨t', ht', fun h => hok (hP h)⟩)
  exact ⟨s', h1, h2⟩

/-! ## Files -/

theorem printCsv_frame (env : Env R) (s : System R) (filename : String) (indVar depVar : ℚ)
    (seed : Int) :
    ∃ (f : String → Option (List CsvLine)) (e : List String),
      printCsv env s filename indVar depVar seed = { s with files := f, cerr := e } := by
  unfold printCsv
  split
  · exact ⟨_, _, rfl⟩
  · exact ⟨_, _, rfl⟩

theorem csvHeaders_frame (env : Env R) (s : System R) (indVar depVar : String) (seed : Int) :
    ∃ f : String → Option (List CsvLine),
      csvHeaders env s indVar depVar seed = { s with files := f } := by
  unfold csvHeaders
  simp only
  split
  · exact ⟨_, rfl⟩
  · exact ⟨_, rfl⟩

/-- What `calcVars` does: the magnetisation is computed and stored, and one `printCsv`
of the row `(numSweeps, M, seed)` follows. -/
theorem calcVars_eq (env : Env R) (s : System R) (filename : String) (numSweeps : Int)
    (hN : 0 ≤ env.gridSize) :
    ∃ d : ℚ, calcVars env s filename numSweeps =
      some (printCsv env
        { s with
          M := (spinSum env.gridSize s.grid : ℚ) / (numSpins env.gridSize : ℚ),
          N := numSpins env.gridSize,
          dM := d }
        filename (numSweeps : ℚ)
        ((spinSum env.gridSize s.grid : ℚ) / (numSpins env.gridSize : ℚ))
        s.seed) := by
  obtain ⟨d, hm⟩ := magnetisation_eq env s hN
  refine ⟨d, ?_⟩
  unfold calcVars
  rw [if_pos (Int.tmod_one numSweeps), hm]
  rfl

/-! ## One tick -/

theorem printCsv_grid (env : Env R) (s : System R) (filename : String) (indVar depVar : ℚ)
    (seed : Int) :
    (printCsv env s filename indVar depVar seed).grid = s.grid ∧
    (printCsv env s filename indVar depVar seed).inverseTemperatureBeta =
      s.inverseTemperatureBeta ∧
    (printCsv env s filename indVar depVar seed).rgen = s.rgen := by
  unfold printCsv
  split <;> exact ⟨rfl, rfl, rfl⟩

/-- The body of the sweeping branch of `keepGoing` on a state `s3`: the row
`(numSweeps, mean spin, seed)` goes to `printCsv`, one `MCsweep` runs on the lattice
and generator of `s3`, and `numSweeps` grows by one. -/
theorem sweepBranch_eq (env : Env R) (hrng : RngInRange env) (s3 : System R)
    (filename : String) :
    ∃ (post : System R) (d : ℚ),
      MCsweep env s3 = some post ∧
      (calcVars env s3 filename s3.numSweeps).bind (fun s4 =>
        (MCsweep env s4).bind (fun s5 =>
          some { s5 with numSweeps := s5.numSweeps + 1 })) =
      some { s3 with
        grid := post.grid,
        rgen := post.rgen,
        numSweeps := s3.numSweeps + 1,
        M := meanSpin env.gridSize s3.grid,
        N := numSpins env.gridSize,
        dM := d,
        files :=
          if env.canOpen filename then
            fun name =>
              if name = filename then
                some ((s3.files filename).getD [] ++
                  [CsvLine.row (s3.numSweeps : ℚ) (meanSpin env.gridSize s3.grid) s3.seed])
              else s3.files name
          else s3.files,
        cerr :=
          if env.canOpen filename then s3.cerr
          else s3.cerr ++ ["Error: Unable to open the file for writing."] } := by
  have hN := gridSize_pos_of_rng env hrng s3.rgen
  obtain ⟨post, hpost, -⟩ := MCsweep_total env hrng s3
  obtain ⟨d, hc⟩ := calcVars_eq env s3 filename s3.numSweeps (by omega)
  refine ⟨post, d, hpost, ?_⟩
  rw [hc, Option.some_bind]
  obtain ⟨g1, g2, g3⟩ := printCsv_grid env
    { s3 with
      M := (spinSum env.gridSize s3.grid : ℚ) / (numSpins env.gridSize : ℚ),
      N := numSpins env.gridSize,
      dM := d }
    filename (s3.numSweeps : ℚ)
    ((spinSum env.gridSize s3.grid : ℚ) / (numSpins env.gridSize : ℚ)) s3.seed
  rw [MCsweep_congr env s3 _ g1 g2 g3, hpost]
  simp only [Option.map_some', Option.some_bind]
  unfold printCsv meanSpin
  by_cases ho : env.canOpen filename = true
  · simp only [if_pos ho]
  · simp only [if_neg ho]

theorem MCsweep_some_congr (env : Env R) (s t post : System R)
    (h : MCsweep env s = some post) (hg : t.grid = s.grid)
    (hb : t.inverseTemperatureBeta = s.inverseTemperatureBeta) (hr : t.rgen = s.rgen) :
    MCsweep env t = some { t with grid := post.grid, rgen := post.rgen } := by
  rw [MCsweep_congr env s t hg hb hr, h]
  rfl

/-- A tick with `numSweeps < endSweeps`: the header is written first when `numSweeps`
is `0`, the row `(numSweeps, mean spin, seed)` goes to `printCsv`, one `MCsweep` runs
on the lattice and generator of `s`, and `numSweeps` grows by one. -/
theorem keepGoing_sweep (env : Env R) (hrng : RngInRange env) (s : System R)
    (hlt : s.numSweeps < s.endSweeps) :
    ∃ (post : System R) (d : ℚ),
      MCsweep env s = some post ∧
      keepGoing env s = some { s with
        grid := post.grid,
        rgen := post.rgen,
        numSweeps := s.numSweeps + 1,
        M := meanSpin env.gridSize s.grid,
        N := numSpins env.gridSize,
        dM := d,
        fileName := runFile s.seed,
        cout :=
          (if s.numSweeps = 0 then s.cout ++ ["initial file name = " ++ runFile s.seed]
            else s.cout) ++ ["file name = " ++ runFile s.seed],
        files :=
          if env.canOpen (runFile s.seed) then
            fun name =>
              if name = runFile s.seed then
                some ((if s.numSweeps = 0 then [CsvLine.text "sweeps,magnetisation,seed"]
                    else (s.files (runFile s.seed)).getD []) ++
                  [CsvLine.row (s.numSweeps : ℚ) (meanSpin env.gridSize s.grid) s.seed])
              else s.files name
          else s.files,
        cerr :=
          if env.canOpen (runFile s.seed) then s.cerr
          else s.cerr ++ ["Error: Unable to open the file for writing."] } := by
  have hhdr : ("sweeps" ++ "," ++ "magnetisation" ++ "," ++ "seed" : String) =
      "sweeps,magnetisation,seed" := by decide
  refine Exists.elim (sweepBranch_eq env hrng ?S3 ?fn) (fun post h => ?_)
  case S3 =>
    exact { (if s.numSweeps = 0 then
        { csvHeaders env s "sweeps" "magnetisation" s.seed with
          fileName := runFile s.seed,
          cout := s.cout ++ ["initial file name = " ++ runFile s.seed] }
      else s) with
      fileName := runFile s.seed,
      cout := (if s.numSweeps = 0 then s.cout ++ ["initial file name = " ++ runFile s.seed]
        else s.cout) ++ ["file name = " ++ runFile s.seed] }
  case fn => exact runFile s.seed
  obtain ⟨d, hp, hq⟩ := h
  by_cases h0 : s.numSweeps = 0
  · have hlt0 : (0 : Int) < s.endSweeps := by rw [← h0]; exact hlt
    by_cases ho : env.canOpen (runFile s.seed) = true
    · have ho' : env.canOpen (getFileName "sweeps" "magnetisation" s.seed) = true := ho
      simp only [h0, if_true, csvHeaders, ho', ho, hhdr] at hp hq
      refine ⟨_, d, MCsweep_some_congr env _ s post hp rfl rfl rfl, ?_⟩
      unfold keepGoing
      simp only [h0, if_true, csvHeaders, ho', hhdr, hlt0, runFile] at hq ⊢
      rw [hq]
      simp only [ho', if_true, Option.getD_some, Int.cast_zero, zero_add, Option.some.injEq]
      congr 1
      funext name
      by_cases hn : name = getFileName "sweeps" "magnetisation" s.seed
      · simp only [hn, if_true]
      · simp only [hn, if_false]
    · have hof : env.canOpen (runFile s.seed) = false := by simpa using ho
      have hof' : env.canOpen (getFileName "sweeps" "magnetisation" s.seed) = false := hof
      simp only [h0, if_true, csvHeaders, hof, hof', Bool.false_eq_true, if_false] at hp hq
      refine ⟨_, d, MCsweep_some_congr env _ s post hp rfl rfl rfl, ?_⟩
      unfold keepGoing
      simp only [h0, if_true, csvHeaders, hof', Bool.false_eq_true, if_false, hlt0,
        runFile] at hq ⊢
      rw [hq]
  · simp only [h0, if_false] at hp hq
    refine ⟨_, d, MCsweep_some_congr env _ s post hp rfl rfl rfl, ?_⟩
    unfold keepGoing
    simp only [h0, if_false, hlt, if_true, runFile] at hq ⊢
    rw [hq]

/-- A tick with `numSweeps ≥ endSweeps` and `numSweeps ≠ 0` and runs left: the seed
becomes the `int` value of `seed + 1`, `numSweeps` goes back to `0`, and nothing else
changes. -/
theorem keepGoing_nextRun (env : Env R) (s : System R) (h0 : s.numSweeps ≠ 0)
    (hge : ¬ s.numSweeps < s.endSweeps) (hruns : s.numRuns < s.endRuns) :
    keepGoing env s = some { s with seed := wrapInt (s.seed + 1), numSweeps := 0 } := by
  unfold keepGoing
  simp only [h0, if_false, hge, hruns, if_true]

/-- A tick with `numSweeps ≥ endSweeps` and `numSweeps ≠ 0` and no runs left calls
`pauseRunning` and does nothing else. -/
theorem keepGoing_pause (env : Env R) (s : System R) (h0 : s.numSweeps ≠ 0)
    (hge : ¬ s.numSweeps < s.endSweeps) (hruns : ¬ s.numRuns < s.endRuns) :
    keepGoing env s = some (pauseRunning s) := by
  unfold keepGoing
  simp only [h0, if_false, hge, hruns]

/-- A tick with `numSweeps ≥ endSweeps` returns and touches neither the lattice nor
the generator. -/
theorem keepGoing_idle (env : Env R) (s : System R) (hge : ¬ s.numSweeps < s.endSweeps) :
    ∃ s' : System R, keepGoing env s = some s' ∧ s'.grid = s.grid ∧ s'.rgen = s.rgen := by
  unfold keepGoing csvHeaders pauseRunning
  by_cases h0 : s.numSweeps = 0
  · have hge0 : ¬ (0 : Int) < s.endSweeps := by rw [← h0]; exact hge
    rcases Bool.eq_false_or_eq_true
      (env.canOpen (getFileName "sweeps" "magnetisation" s.seed)) with ho | ho <;>
    by_cases hruns : s.numRuns < s.endRuns <;>
    simp only [h0, ho, if_true, hge0, if_false, hruns, Bool.false_eq_true, eq_self_iff_true] <;>
    exact ⟨_, rfl, rfl, rfl⟩
  · by_cases hruns : s.numRuns < s.endRuns <;>
    simp only [h0, if_false, hge, hruns, if_true] <;>
    exact ⟨_, rfl, rfl, rfl⟩

/-- Under the generator contract a tick returns, and it keeps every spin in `{-1, +1}`. -/
theorem keepGoing_total (env : Env R) (hrng : RngInRange env) (s : System R) :
    ∃ s' : System R, keepGoing env s = some s' ∧
      (SpinsOk env.gridSize s.grid → SpinsOk env.gridSize s'.grid) := by
  by_cases hlt : s.numSweeps < s.endSweeps
  · obtain ⟨post, d, hp, hk⟩ := keepGoing_sweep env hrng s hlt
    obtain ⟨post', hp', hok⟩ := MCsweep_total env hrng s
    rw [hp] at hp'
    cases hp'
    exact ⟨_, hk, hok⟩
  · obtain ⟨s', hk, hg, -⟩ := keepGoing_idle env s hlt
    exact ⟨s', hk, fun h => by rw [hg]; exact h⟩

theorem demoEnv_rngInRange (gridSize : Int) (hN : 1 ≤ gridSize) :
    RngInRange (demoEnv gridSize) := by
  intro r
  show 0 ≤ (r : Int) % gridSize ∧ (r : Int) % gridSize < gridSize
  exact ⟨Int.emod_nonneg _ (by omega), Int.emod_lt_of_pos _ (by omega)⟩

/-! ## The spin invariant -/

/-- C5: every cell of the lattice is `-1` or `+1` after `Reset`, and `flipSpin`,
`attemptSpinFlip`, `MCsweep` and the tick `keepGoing` return with that property kept,
whatever the generator draws inside the grid; so every state reachable from `Reset`
by these operations has all spins in `{-1, +1}`. -/
theorem spins_invariant (env : Env R) (setTemperature : ℚ → System R → System R)
    (hrng : RngInRange env) :
    (∀ s : System R, ∃ s' : System R,
      Reset env setTemperature s = some s' ∧ SpinsOk env.gridSize s'.grid) ∧
    (∀ (grid : Grid) (pos : Pos), SpinsOk env.gridSize grid → inRange env.gridSize pos →
      ∃ g' : Grid, flipSpin env.gridSize grid pos = some g' ∧ SpinsOk env.gridSize g') ∧
    (∀ s : System R, SpinsOk env.gridSize s.grid →
      ∃ s' : System R, attemptSpinFlip env s = some s' ∧ SpinsOk env.gridSize s'.grid) ∧
    (∀ s : System R, SpinsOk env.gridSize s.grid →
      ∃ s' : System R, MCsweep env s = some s' ∧ SpinsOk env.gridSize s'.grid) ∧
    (∀ s : System R, SpinsOk env.gridSize s.grid →
      ∃ s' : System R, keepGoing env s = some s' ∧ SpinsOk env.gridSize s'.grid) ∧
    (∀ s : System R, Reachable env setTemperature s → SpinsOk env.gridSize s.grid) := by
  refine ⟨fun s => ?_, fun grid pos hok hpos => ?_, fun s hok => ?_, fun s hok => ?_,
    fun s hok => ?_, fun s hreach => ?_⟩
  · have hN := gridSize_pos_of_rng env hrng s.rgen
    obtain ⟨s', h1, h2⟩ := reset_spec env setTemperature s (by omega)
    exact ⟨s', h1, fun i j hij => Or.inl (h2 i j hij)⟩
  · exact ⟨_, flipSpin_of_inRange grid hpos, spinsOk_flip _ _ _ hok hpos⟩
  · obtain ⟨s', h1, h2⟩ := attemptSpinFlip_total env hrng s
    exact ⟨s', h1, h2 hok⟩
  · obtain ⟨s', h1, h2⟩ := MCsweep_total env hrng s
    exact ⟨s', h1, h2 hok⟩
  · obtain ⟨s', h1, h2⟩ := keepGoing_total env hrng s
    exact ⟨s', h1, h2 hok⟩
  · induction hreach with
    | byReset s s' h =>
      have hN := gridSize_pos_of_rng env hrng s.rgen
      obtain ⟨s'', h1, h2⟩ := reset_spec env setTemperature s (by omega)
      rw [h] at h1
      cases h1
      exact fun i j hij => Or.inl (h2 i j hij)
    | byFlipSpin s pos g _ h ih =>
      unfold flipSpin at h
      split at h
      · rename_i hpos
        cases h
        exact spinsOk_flip _ _ _ ih hpos
      · cases h
    | byAttemptSpinFlip s s' _ h ih =>
      obtain ⟨s'', h1, h2⟩ := attemptSpinFlip_total env hrng s
      rw [h] at h1
      cases h1
      exact h2 ih
    | byMCsweep s s' _ h ih =>
      obtain ⟨s'', h1, h2⟩ := MCsweep_total env hrng s
      rw [h] at h1
      cases h1
      exact h2 ih
    | byKeepGoing s s' _ h ih =>
      obtain ⟨s'', h1, h2⟩ := keepGoing_total env hrng s
      rw [h] at h1
      cases h1
      exact h2 ih

/-- Witness of C5: the 3 by 3 grid with the generator of `demoEnv`. -/
theorem spins_invariant_witness :
    RngInRange (demoEnv 3) ∧
    (∀ s : System Nat, ∃ s' : System Nat,
      Reset (demoEnv 3) demoSetTemperature s = some s' ∧ SpinsOk (demoEnv 3).gridSize s'.grid) ∧
    (∀ (grid : Grid) (pos : Pos), SpinsOk (demoEnv 3).gridSize grid → inRange (demoEnv 3).gridSize pos →
      ∃ g' : Grid, flipSpin (demoEnv 3).gridSize grid pos = some g' ∧ SpinsOk (demoEnv 3).gridSize g') ∧
    (∀ s : System Nat, SpinsOk (demoEnv 3).gridSize s.grid →
      ∃ s' : System Nat, attemptSpinFlip (demoEnv 3) s = some s' ∧ SpinsOk (demoEnv 3).gridSize s'.grid) ∧
    (∀ s : System Nat, SpinsOk (demoEnv 3).gridSize s.grid →
      ∃ s' : System Nat, MCsweep (demoEnv 3) s = some s' ∧ SpinsOk (demoEnv 3).gridSize s'.grid) ∧
    (∀ s : System Nat, SpinsOk (demoEnv 3).gridSize s.grid →
      ∃ s' : System Nat, keepGoing (demoEnv 3) s = some s' ∧ SpinsOk (demoEnv 3).gridSize s'.grid) ∧
    (∀ s : System Nat, Reachable (demoEnv 3) demoSetTemperature s → SpinsOk (demoEnv 3).gridSize s.grid) :=
  ⟨demoEnv_rngInRange 3 (by decide),
    spins_invariant (demoEnv 3) demoSetTemperature (demoEnv_rngInRange 3 (by decide))⟩

/-! ## What a sweep draws -/

theorem withDrawLog_rngInRange (env : Env R) (hrng : RngInRange env) :
    RngInRange (withDrawLog env) :=
  fun rl => hrng rl.1

theorem drawsOf_append (sites : List Pos) (p : Pos) :
    drawsOf (sites ++ [p]) = drawsOf sites ++ [p.1, p.2] := by
  induction sites with
  | nil => rfl
  | cons q rest ih => simp [drawsOf, ih]

theorem sitesOf_drawsOf (sites : List Pos) : sitesOf (drawsOf sites) = sites := by
  induction sites with
  | nil => rfl
  | cons q rest ih => simp [drawsOf, sitesOf, ih]

/-- One attempt under the logging generator appends the two coordinates of its site. -/
theorem attemptSpinFlip_log (env : Env R) (hrng : RngInRange env)
    (s : System (R × List Int)) :
    ∃ s' : System (R × List Int), attemptSpinFlip (withDrawLog env) s = some s' ∧
      s'.rgen.2 = s.rgen.2 ++
        [(drawnSite (withDrawLog env) s).1, (drawnSite (withDrawLog env) s).2] := by
  have hrng' := withDrawLog_rngInRange env hrng
  have hN := gridSize_pos_of_rng _ hrng' s.rgen
  have hpos := drawnSite_inRange _ hrng' s
  refine ⟨_, attemptSpinFlip_eq (withDrawLog env) s hN hpos, ?_⟩
  have hlog : (rgenAfterSite (withDrawLog env) s).2 = s.rgen.2 ++
      [(drawnSite (withDrawLog env) s).1, (drawnSite (withDrawLog env) s).2] := by
    simp [rgenAfterSite, drawnSite, withDrawLog]
  split
  · exact hlog
  · split
    · exact hlog
    · exact hlog

/-- One sweep under the logging generator appends the coordinates of as many sites
as the loop of `MCsweep` runs iterations: the `int` value of `N*N`, or none when that
is negative. -/
theorem MCsweep_log (env : Env R) (hrng : RngInRange env) (s : System (R × List Int)) :
    ∃ (s' : System (R × List Int)) (sites : List Pos),
      MCsweep (withDrawLog env) s = some s' ∧
      s'.rgen.2 = s.rgen.2 ++ drawsOf sites ∧
      sites.length = (wrapInt (env.gridSize * env.gridSize)).toNat ∧
      (∀ p ∈ sites, inRange env.gridSize p) ∧
      (∀ p ∈ sites, ∃ t : System (R × List Int), p = drawnSite (withDrawLog env) t) := by
  have hrng' := withDrawLog_rngInRange env hrng
  obtain ⟨s', h1, sites, h2, h3, h4, h5⟩ := forLoop_toNat_rule
    (fun _ s1 => attemptSpinFlip (withDrawLog env) s1)
    (fun i t => ∃ sites : List Pos, t.rgen.2 = s.rgen.2 ++ drawsOf sites ∧
      sites.length = i.toNat ∧ (∀ p ∈ sites, inRange env.gridSize p) ∧
      (∀ p ∈ sites, ∃ u : System (R × List Int), p = drawnSite (withDrawLog env) u))
    (wrapInt (env.gridSize * env.gridSize)) s
    ⟨[], by simp [drawsOf], rfl, by simp, by simp⟩
    (fun i t hi0 _ hP => by
      obtain ⟨sites, hs1, hs2, hs3, hs4⟩ := hP
      obtain ⟨t', ht', hlog⟩ := attemptSpinFlip_log env hrng t
      refine ⟨t', ht', sites ++ [drawnSite (withDrawLog env) t], ?_, ?_, ?_, ?_⟩
      · rw [hlog, hs1, drawsOf_append, List.append_assoc]
      · rw [List.length_append, hs2]
        simp only [List.length_singleton]
        omega
      · intro p hp
        rcases List.mem_append.mp hp with hp | hp
        · exact hs3 p hp
        · rw [List.mem_singleton.mp hp]
          exact drawnSite_inRange _ hrng' t
      · intro p hp
        rcases List.mem_append.mp hp with hp | hp
        · exact hs4 p hp
        · exact ⟨t, List.mem_singleton.mp hp⟩)
  exact ⟨s', sites, h1, h2, h3.trans (Int.toNat_ofNat _), h4, h5⟩

/-- Every attempt under the logging generator makes the log two entries longer. -/
theorem iterateM_log_length (env : Env R) (hrng : RngInRange env) (n : Nat)
    (s t : System (R × List Int))
    (h : iterateM (attemptSpinFlip (withDrawLog env)) n s = some t) :
    t.rgen.2.length = s.rgen.2.length + 2 * n := by
  induction n generalizing s with
  | zero =>
    simp only [iterateM, Option.some.injEq] at h
    rw [← h]
    rfl
  | succ n ih =>
    obtain ⟨s1, h1, hlog⟩ := attemptSpinFlip_log env hrng s
    simp only [iterateM, h1, Option.some_bind] at h
    rw [ih s1 h, hlog, List.length_append]
    simp only [List.length_cons, List.length_nil]
    omega

theorem stuckEnv_rngInRange : RngInRange stuckEnv := by
  intro r
  show (0 : Int) ≤ 0 ∧ (0 : Int) < 2
  omega

/-- C8 as stated fails at grid size 46341, under a generator that meets its contract:
the loop bound `gridSize*gridSize` of `MCsweep` wraps to a negative `int`, the loop
runs no iteration, and the sweep returns the state as it was, having drawn no site,
although `N*N` is 2147488281; so it is not the `N*N`-fold iteration of
`attemptSpinFlip`, and the sites it draws are not `N*N` many. -/
theorem MCsweep_attempts_overflow :
    RngInRange (demoEnv 46341) ∧
    ((demoEnv 46341).gridSize * (demoEnv 46341).gridSize).toNat = 2147488281 ∧
    MCsweep (withDrawLog (demoEnv 46341)) (demoSystemWith (0, [])) =
      some (demoSystemWith (0, [])) ∧
    MCsweep (withDrawLog (demoEnv 46341)) (demoSystemWith (0, [])) ≠
      iterateM (attemptSpinFlip (withDrawLog (demoEnv 46341)))
        ((demoEnv 46341).gridSize * (demoEnv 46341).gridSize).toNat
        (demoSystemWith (0, [])) ∧
    ¬ ∃ (s' : System (Nat × List Int)) (sites : List Pos),
        MCsweep (withDrawLog (demoEnv 46341)) (demoSystemWith (0, [])) = some s' ∧
        s'.rgen.2 = (demoSystemWith ((0 : Nat), ([] : List Int))).rgen.2 ++ drawsOf sites ∧
        sites.length = ((demoEnv 46341).gridSize * (demoEnv 46341).gridSize).toNat ∧
        ∀ p ∈ sites, inRange (demoEnv 46341).gridSize p := by
  have h0 : (wrapInt (46341 * 46341)).toNat = 0 := by decide
  have hrun : MCsweep (withDrawLog (demoEnv 46341)) (demoSystemWith (0, [])) =
      some (demoSystemWith (0, [])) := by
    show forLoopFrom (fun _ s1 => attemptSpinFlip (withDrawLog (demoEnv 46341)) s1)
      (wrapInt (46341 * 46341)).toNat 0 (demoSystemWith (0, [])) =
        some (demoSystemWith (0, []))
    rw [h0]
    rfl
  have hrng := demoEnv_rngInRange 46341 (by decide)
  have hNN : ((demoEnv 46341).gridSize * (demoEnv 46341).gridSize).toNat = 2147488281 := by
    decide
  refine ⟨hrng, hNN, hrun, fun heq => ?_, ?_⟩
  · rw [hrun, hNN] at heq
    have hlen := iterateM_log_length (demoEnv 46341) hrng _ _ _ heq.symm
    have hlen' : (0 : Nat) = 0 + 2 * 2147488281 := hlen
    omega
  rintro ⟨s', sites, h1, h2, h3, -⟩
  rw [hrun] at h1
  cases h1
  have hd : drawsOf sites = [] := by
    have h2' : ([] : List Int) = [] ++ drawsOf sites := h2
    simpa using h2'.symm
  have hs : sites = [] := by
    rw [← sitesOf_drawsOf sites, hd]
    rfl
  rw [hs] at h3
  exact absurd h3 (by decide)

/-- C8 as amended: for a grid size of at most 46340, so that `N*N` fits the `int` of the
loop bound, one `MCsweep` is the `N*N`-fold iteration of `attemptSpinFlip`; under a
generator that logs what `randomInt` returns, it draws exactly `N*N` sites, each
inside the grid; and it is no scan of the lattice: with a generator that always
returns `0`, the four attempts of a sweep of the 2 by 2 grid all hit the site `(0, 0)`
and no attempt hits any of the other three sites. -/
theorem MCsweep_attempts (env : Env R) (hrng : RngInRange env)
    (hfit : env.gridSize ≤ 46340) :
    (∀ s : System R,
      MCsweep env s =
        iterateM (attemptSpinFlip env) (env.gridSize * env.gridSize).toNat s) ∧
    (∀ s : System (R × List Int),
      ∃ (s' : System (R × List Int)) (sites : List Pos),
        MCsweep (withDrawLog env) s = some s' ∧
        s'.rgen.2 = s.rgen.2 ++ drawsOf sites ∧
        sites.length = (env.gridSize * env.gridSize).toNat ∧
        ∀ p ∈ sites, inRange env.gridSize p) ∧
    (∃ s' : System (Unit × List Int),
      MCsweep (withDrawLog stuckEnv) (demoSystemWith ((), [])) = some s' ∧
      sitesOf s'.rgen.2 = [(0, 0), (0, 0), (0, 0), (0, 0)]) := by
  have hw : ∀ r : R, wrapInt (env.gridSize * env.gridSize) = env.gridSize * env.gridSize :=
    fun r => numSpins_of_fits env.gridSize
      (by have := gridSize_pos_of_rng env hrng r; omega) hfit
  refine ⟨fun s => ?_, fun s => ?_, ?_⟩
  · rw [← hw s.rgen]
    exact forLoopFrom_eq_iterateM _ _ 0 s
  · obtain ⟨s', sites, h1, h2, h3, h4, -⟩ := MCsweep_log env hrng s
    rw [hw s.rgen.1] at h3
    exact ⟨s', sites, h1, h2, h3, h4⟩
  · obtain ⟨s', sites, h1, h2, h3, -, h5⟩ :=
      MCsweep_log stuckEnv stuckEnv_rngInRange (demoSystemWith ((), []))
    refine ⟨s', h1, ?_⟩
    have hall : ∀ p ∈ sites, p = ((0, 0) : Pos) := by
      intro p hp
      obtain ⟨t, ht⟩ := h5 p hp
      rw [ht]
      rfl
    have hlen : sites.length = 4 := h3.trans (by decide)
    have hsites : sites = List.replicate 4 ((0, 0) : Pos) :=
      List.eq_replicate_iff.mpr ⟨hlen, hall⟩
    rw [h2, hsites]
    rfl

/-- Witness of the amended C8: the generator of `demoEnv` on the 3 by 3 grid. -/
theorem MCsweep_attempts_witness :
    RngInRange (demoEnv 3) ∧ (demoEnv 3).gridSize ≤ 46340 ∧
    (∀ s : System Nat,
      MCsweep (demoEnv 3) s =
        iterateM (attemptSpinFlip (demoEnv 3)) ((demoEnv 3).gridSize * (demoEnv 3).gridSize).toNat s) ∧
    (∀ s : System (Nat × List Int),
      ∃ (s' : System (Nat × List Int)) (sites : List Pos),
        MCsweep (withDrawLog (demoEnv 3)) s = some s' ∧
        s'.rgen.2 = s.rgen.2 ++ drawsOf sites ∧
        sites.length = ((demoEnv 3).gridSize * (demoEnv 3).gridSize).toNat ∧
        ∀ p ∈ sites, inRange (demoEnv 3).gridSize p) ∧
    (∃ s' : System (Unit × List Int),
      MCsweep (withDrawLog stuckEnv) (demoSystemWith ((), [])) = some s' ∧
      sitesOf s'.rgen.2 = [(0, 0), (0, 0), (0, 0), (0, 0)]) :=
  ⟨demoEnv_rngInRange 3 (by decide), by decide,
    MCsweep_attempts (demoEnv 3) (demoEnv_rngInRange 3 (by decide)) (by decide)⟩

/-! ## Runs of ticks -/

/-- The facts of a sweeping tick that the run-level statements use. -/
theorem keepGoing_sweep_facts (env : Env R) (hrng : RngInRange env) (s : System R)
    (hlt : s.numSweeps < s.endSweeps) :
    ∃ (s' post : System R), keepGoing env s = some s' ∧ MCsweep env s = some post ∧
      s'.grid = post.grid ∧ s'.rgen = post.rgen ∧
      s'.numSweeps = s.numSweeps + 1 ∧
      s'.seed = s.seed ∧ s'.numRuns = s.numRuns ∧ s'.endSweeps = s.endSweeps ∧
      s'.endRuns = s.endRuns ∧ s'.isActive = s.isActive ∧
      (env.canOpen (runFile s.seed) = true →
        s'.files (runFile s.seed) =
          some ((if s.numSweeps = 0 then [CsvLine.text "sweeps,magnetisation,seed"]
              else (s.files (runFile s.seed)).getD []) ++
            [CsvLine.row (s.numSweeps : ℚ) (meanSpin env.gridSize s.grid) s.seed])) ∧
      (∀ name : String, name ≠ runFile s.seed → s'.files name = s.files name) := by
  obtain ⟨post, d, hp, hk⟩ := keepGoing_sweep env hrng s hlt
  refine ⟨_, post, hk, hp, rfl, rfl, rfl, rfl, rfl, rfl, rfl, rfl, fun ho => ?_,
    fun name hname => ?_⟩
  · simp only [ho, if_true]
  · by_cases ho : env.canOpen (runFile s.seed) = true
    · simp only [ho, if_true, hname, if_false]
    · simp only [ho, Bool.false_eq_true, if_false]

theorem iterateM_succ_last {σ : Type} (f : σ → Option σ) (n : Nat) (s : σ) :
    iterateM f (n + 1) s = (iterateM f n s).bind f := by
  induction n generalizing s with
  | zero =>
    simp only [iterateM, Option.some_bind]
    cases f s <;> rfl
  | succ n ih =>
    rw [iterateM]
    cases h : f s with
    | none => simp [iterateM, h]
    | some t =>
      rw [Option.some_bind, ih t]
      conv_rhs => rw [iterateM, h, Option.some_bind]

/-- The first `k` ticks of a run that starts with `numSweeps = 0`, for `k` up to
`endSweeps`: each one sweeps, `numSweeps` is `k` afterwards, and when the run's file can
be opened it holds the header and the rows `0 .. k-1`. -/
theorem ticks_sweeping (env : Env R) (hrng : RngInRange env) (s : System R)
    (hs0 : s.numSweeps = 0) (k : Nat) (hk : (k : Int) ≤ s.endSweeps) :
    ∃ (sk : System R) (m : Nat → ℚ),
      iterateM (keepGoing env) k s = some sk ∧
      sk.numSweeps = (k : Int) ∧ sk.endSweeps = s.endSweeps ∧ sk.seed = s.seed ∧
      sk.numRuns = s.numRuns ∧ sk.endRuns = s.endRuns ∧ sk.isActive = s.isActive ∧
      (env.canOpen (runFile s.seed) = true → 1 ≤ k →
        sk.files (runFile s.seed) =
          some (CsvLine.text "sweeps,magnetisation,seed" ::
            (List.range k).map (fun j : Nat => CsvLine.row (j : ℚ) (m j) s.seed))) := by
  induction k with
  | zero =>
    exact ⟨s, fun _ => 0, rfl, by simpa using hs0, rfl, rfl, rfl, rfl, rfl,
      fun _ h => absurd h (by omega)⟩
  | succ n ih =>
    obtain ⟨sn, m, hit, h1, h2, h3, h4, h5, h6, h7⟩ := ih (by push_cast at hk ⊢; omega)
    have hlt : sn.numSweeps < sn.endSweeps := by
      rw [h1, h2]
      push_cast at hk
      omega
    obtain ⟨s', post, hkg, -, -, -, g1, g2, g3, g4, g5, g6, g7, -⟩ :=
      keepGoing_sweep_facts env hrng sn hlt
    refine ⟨s', fun j => if j = n then meanSpin env.gridSize sn.grid else m j, ?_, ?_, ?_, ?_,
      ?_, ?_, ?_, ?_⟩
    · rw [iterateM_succ_last, hit, Option.some_bind, hkg]
    · rw [g1, h1]
      push_cast
      rfl
    · rw [g4, h2]
    · rw [g2, h3]
    · rw [g3, h4]
    · rw [g5, h5]
    · rw [g6, h6]
    · intro ho _
      rw [h3] at g7
      rw [g7 ho, List.range_succ, List.map_append]
      have hmap : (List.range n).map (fun j : Nat => CsvLine.row (j : ℚ)
          (if j = n then meanSpin env.gridSize sn.grid else m j) s.seed) =
          (List.range n).map (fun j : Nat => CsvLine.row (j : ℚ) (m j) s.seed) := by
        apply List.map_congr_left
        intro j hj
        have : j ≠ n := by
          have := List.mem_range.mp hj
          omega
        simp only [this, if_false]
      rw [hmap]
      by_cases hn : n = 0
      · subst hn
        simp [h1]
      · have hne : sn.numSweeps ≠ 0 := by
          rw [h1]
          exact_mod_cast hn
        rw [if_neg hne, h7 ho (by omega)]
        simp [h1]

/-! ## The run/sweep state machine -/

/-- C9: a tick with `numSweeps < endSweeps` performs one `MCsweep`, adds one to
`numSweeps`, and (the run's file being openable) appends one row carrying the old
`numSweeps` to that file and to no other. From `endSweeps = 10`, `endRuns = 1`,
`numSweeps = 0`, `numRuns = 0`, each of the first 10 ticks is such a tick, `numSweeps`
is `k` after `k` of them and `10` after the tenth, and the file then holds the header
and 10 rows with the sweep indices `0, 1, ..., 9`. -/
theorem keepGoing_ten_sweeps (env : Env R) (hrng : RngInRange env) :
    (∀ s : System R, s.numSweeps < s.endSweeps →
      ∃ (s' post : System R), keepGoing env s = some s' ∧ MCsweep env s = some post ∧
        s'.grid = post.grid ∧ s'.rgen = post.rgen ∧
        s'.numSweeps = s.numSweeps + 1 ∧
        (env.canOpen (runFile s.seed) = true →
          s'.files (runFile s.seed) =
            some ((if s.numSweeps = 0 then [CsvLine.text "sweeps,magnetisation,seed"]
                else (s.files (runFile s.seed)).getD []) ++
              [CsvLine.row (s.numSweeps : ℚ) (meanSpin env.gridSize s.grid) s.seed])) ∧
        (∀ name : String, name ≠ runFile s.seed → s'.files name = s.files name)) ∧
    (∀ s : System R, s.endSweeps = 10 → s.endRuns = 1 → s.numSweeps = 0 → s.numRuns = 0 →
      (∀ k : Nat, k < 10 →
        ∃ (sk sk1 post : System R),
          iterateM (keepGoing env) k s = some sk ∧ sk.numSweeps = (k : Int) ∧
          keepGoing env sk = some sk1 ∧ iterateM (keepGoing env) (k + 1) s = some sk1 ∧
          sk1.numSweeps = (k : Int) + 1 ∧
          MCsweep env sk = some post ∧ sk1.grid = post.grid ∧ sk1.rgen = post.rgen) ∧
      (∃ s10 : System R, iterateM (keepGoing env) 10 s = some s10 ∧ s10.numSweeps = 10) ∧
      (env.canOpen (runFile s.seed) = true →
        ∃ (s10 : System R) (m : Nat → ℚ),
          iterateM (keepGoing env) 10 s = some s10 ∧
          s10.files (runFile s.seed) =
            some (CsvLine.text "sweeps,magnetisation,seed" ::
              (List.range 10).map (fun k : Nat => CsvLine.row (k : ℚ) (m k) s.seed)))) := by
  refine ⟨fun s hlt => ?_, fun s h10 _ hs0 _ => ⟨fun k hk => ?_, ?_, fun ho => ?_⟩⟩
  · obtain ⟨s', post, h1, h2, h3, h4, h5, -, -, -, -, -, h6, h7⟩ :=
      keepGoing_sweep_facts env hrng s hlt
    exact ⟨s', post, h1, h2, h3, h4, h5, h6, h7⟩
  · obtain ⟨sk, m, hit, g1, g2, -⟩ := ticks_sweeping env hrng s hs0 k (by rw [h10]; omega)
    have hlt : sk.numSweeps < sk.endSweeps := by
      rw [g1, g2, h10]
      omega
    obtain ⟨sk1, post, h1, h2, h3, h4, h5, -⟩ := keepGoing_sweep_facts env hrng sk hlt
    refine ⟨sk, sk1, post, hit, g1, h1, ?_, ?_, h2, h3, h4⟩
    · rw [iterateM_succ_last, hit, Option.some_bind, h1]
    · rw [h5, g1]
  · obtain ⟨s10, m, hit, g1, -⟩ := ticks_sweeping env hrng s hs0 10 (by rw [h10]; decide)
    exact ⟨s10, hit, by simpa using g1⟩
  · obtain ⟨s10, m, hit, -, -, -, -, -, -, g7⟩ :=
      ticks_sweeping env hrng s hs0 10 (by rw [h10]; decide)
    exact ⟨s10, m, hit, g7 ho (by decide)⟩

/-- Witness of C9: the generator of `demoEnv` on the 3 by 3 grid. -/
theorem keepGoing_ten_sweeps_witness :
    RngInRange (demoEnv 3) ∧
    (∀ s : System Nat, s.numSweeps < s.endSweeps →
      ∃ (s' post : System Nat), keepGoing (demoEnv 3) s = some s' ∧ MCsweep (demoEnv 3) s = some post ∧
        s'.grid = post.grid ∧ s'.rgen = post.rgen ∧
        s'.numSweeps = s.numSweeps + 1 ∧
        ((demoEnv 3).canOpen (runFile s.seed) = true →
          s'.files (runFile s.seed) =
            some ((if s.numSweeps = 0 then [CsvLine.text "sweeps,magnetisation,seed"]
                else (s.files (runFile s.seed)).getD []) ++
              [CsvLine.row (s.numSweeps : ℚ) (meanSpin (demoEnv 3).gridSize s.grid) s.seed])) ∧
        (∀ name : String, name ≠ runFile s.seed → s'.files name = s.files name)) ∧
    (∀ s : System Nat, s.endSweeps = 10 → s.endRuns = 1 → s.numSweeps = 0 → s.numRuns = 0 →
      (∀ k : Nat, k < 10 →
        ∃ (sk sk1 post : System Nat),
          iterateM (keepGoing (demoEnv 3)) k s = some sk ∧ sk.numSweeps = (k : Int) ∧
          keepGoing (demoEnv 3) sk = some sk1 ∧ iterateM (keepGoing (demoEnv 3)) (k + 1) s = some sk1 ∧
          sk1.numSweeps = (k : Int) + 1 ∧
          MCsweep (demoEnv 3) sk = some post ∧ sk1.grid = post.grid ∧ sk1.rgen = post.rgen) ∧
      (∃ s10 : System Nat, iterateM (keepGoing (demoEnv 3)) 10 s = some s10 ∧ s10.numSweeps = 10) ∧
      ((demoEnv 3).canOpen (runFile s.seed) = true →
        ∃ (s10 : System Nat) (m : Nat → ℚ),
          iterateM (keepGoing (demoEnv 3)) 10 s = some s10 ∧
          s10.files (runFile s.seed) =
            some (CsvLine.text "sweeps,magnetisation,seed" ::
              (List.range 10).map (fun k : Nat => CsvLine.row (k : ℚ) (m k) s.seed)))) :=
  ⟨demoEnv_rngInRange 3 (by decide),
    keepGoing_ten_sweeps (demoEnv 3) (demoEnv_rngInRange 3 (by decide))⟩

/-- C10, the code at the claim's start state (`demoSystem`: `endSweeps = 10`,
`endRuns = 1`, `numSweeps = 0`, `numRuns = 0`, seed 7): after the first 10 ticks the
11th tick does not call `pauseRunning`; it takes the `numRuns < endRuns` branch, which
moves the seed to 8 and `numSweeps` back to 0 with `isActive` untouched, and the 12th
tick sweeps again and writes the header and a row to the file of seed 8. -/
theorem keepGoing_eleventh_tick :
    ∃ s10 s11 s12 : System Nat,
      iterateM (keepGoing (demoEnv 3)) 10 demoSystem = some s10 ∧
      s10.numSweeps = 10 ∧ s10.numRuns = 0 ∧ s10.endRuns = 1 ∧
      keepGoing (demoEnv 3) s10 = some s11 ∧
      s11 = { s10 with seed := 8, numSweeps := 0 } ∧
      s11.isActive = 1 ∧
      s11 ≠ pauseRunning s10 ∧
      keepGoing (demoEnv 3) s11 = some s12 ∧
      s12.numSweeps = 1 ∧
      (∃ post : System Nat, MCsweep (demoEnv 3) s11 = some post ∧
        s12.grid = post.grid ∧ s12.rgen = post.rgen) ∧
      s12.files (runFile 8) =
        some [CsvLine.text "sweeps,magnetisation,seed",
          CsvLine.row 0 (meanSpin 3 s11.grid) 8] := by
  have hrng := demoEnv_rngInRange 3 (by decide)
  obtain ⟨s10, m, hit, g1, g2, g3, g4, g5, g6, -⟩ :=
    ticks_sweeping (demoEnv 3) hrng demoSystem rfl 10 (by decide)
  have e1 : s10.numSweeps = 10 := by simpa using g1
  have e2 : s10.endSweeps = 10 := g2
  have e3 : s10.seed = 7 := g3
  have e4 : s10.numRuns = 0 := g4
  have e5 : s10.endRuns = 1 := g5
  have e6 : s10.isActive = 1 := g6
  have hnext := keepGoing_nextRun (demoEnv 3) s10 (by rw [e1]; decide)
    (by rw [e1, e2]; decide) (by rw [e4, e5]; decide)
  rw [e3] at hnext
  have hlt : ({ s10 with seed := 7 + 1, numSweeps := 0 } : System Nat).numSweeps <
      ({ s10 with seed := 7 + 1, numSweeps := 0 } : System Nat).endSweeps := by
    show (0 : Int) < s10.endSweeps
    rw [e2]
    decide
  obtain ⟨s12, post, h1, h2, h3, h4, h5, -, -, -, -, -, h6, -⟩ :=
    keepGoing_sweep_facts (demoEnv 3) hrng _ hlt
  refine ⟨s10, _, s12, hit, e1, e4, e5, hnext, rfl, e6, ?_, h1, h5, ⟨post, h2, h3, h4⟩, ?_⟩
  · intro h
    have hs := congrArg System.seed h
    simp only [pauseRunning] at hs
    rw [e3] at hs
    exact absurd hs (by decide)
  · have := h6 rfl
    simpa using this

/-! ## The order of emission and sweep -/

theorem meanSpin_one (grid : Grid) : meanSpin 1 grid = (grid 0 0 : ℚ) := by
  have h1 : numSpins 1 = 1 := by decide
  simp [meanSpin, spinSum, h1]

/-- The sweep of the 1 by 1 lattice of `hotSystem`: its single attempt has `dE = 0`,
draws `u = 1/2` and flips the only spin to `+1`. -/
theorem hotSystem_sweep :
    ∃ post : System Nat, MCsweep (demoEnv 1) hotSystem = some post ∧
      post.grid = writeCell hotSystem.grid (0, 0) 1 := by
  have hpos : inRange (demoEnv 1).gridSize (drawnSite (demoEnv 1) hotSystem) := by decide
  have heq := attemptSpinFlip_eq (demoEnv 1) hotSystem (by decide) hpos
  have hE : energyChange (demoEnv 1) hotSystem = 0 := by
    simp [energyChange, localFieldSpec, hotSystem]
  have hU : drawnU (demoEnv 1) hotSystem = 1 / 2 := by
    simp [drawnU, rgenAfterSite, demoEnv, hotSystem, demoSystem, demoSystemWith]
    norm_num
  have hexp : (demoEnv 1).exp (-0) = 1 := by
    simp [demoEnv]
  rw [hE, hU, hexp, if_neg (by norm_num), if_pos (by norm_num)] at heq
  have h1 : (wrapInt ((demoEnv 1).gridSize * (demoEnv 1).gridSize)).toNat = 1 := by decide
  have hm : MCsweep (demoEnv 1) hotSystem = attemptSpinFlip (demoEnv 1) hotSystem := by
    unfold MCsweep forLoop
    rw [h1]
    simp only [forLoopFrom]
    cases attemptSpinFlip (demoEnv 1) hotSystem <;> rfl
  rw [heq] at hm
  exact ⟨_, hm, rfl⟩

/-- C11: in a tick with `numSweeps = k < endSweeps` (the run's file being openable)
the appended record is `(k, m, seed)` with `k` the value of `numSweeps` before the
increment, `seed` the current seed and `m` what `magnetisation()` returns on the
lattice as it is before this tick's `MCsweep`; the lattice after the tick is the swept
one. On the 1 by 1 lattice of `hotSystem` the sweep turns the mean spin from `-1` to
`+1` and the record carries `-1`. -/
theorem keepGoing_record_before_sweep (env : Env R) (hrng : RngInRange env) (s : System R)
    (hlt : s.numSweeps < s.endSweeps) (hopen : env.canOpen (runFile s.seed) = true) :
    (∃ (s' post sm : System R) (m : ℚ) (old : List CsvLine),
      keepGoing env s = some s' ∧
      magnetisation env s = some (m, sm) ∧
      m = meanSpin env.gridSize s.grid ∧
      MCsweep env s = some post ∧
      s'.grid = post.grid ∧
      s'.numSweeps = s.numSweeps + 1 ∧
      s'.seed = s.seed ∧
      s'.files (runFile s.seed) =
        some (old ++ [CsvLine.row (s.numSweeps : ℚ) m s.seed])) ∧
    (∃ (s' post : System Nat),
      keepGoing (demoEnv 1) hotSystem = some s' ∧
      MCsweep (demoEnv 1) hotSystem = some post ∧
      s'.grid = post.grid ∧
      meanSpin 1 hotSystem.grid = -1 ∧
      meanSpin 1 post.grid = 1 ∧
      s'.files (runFile 7) =
        some [CsvLine.text "sweeps,magnetisation,seed", CsvLine.row 0 (-1) 7]) := by
  constructor
  · have hN := gridSize_pos_of_rng env hrng s.rgen
    obtain ⟨d, hm⟩ := magnetisation_eq env s (by omega)
    obtain ⟨s', post, h1, h2, h3, -, h5, h6, -, -, -, -, h7, -⟩ :=
      keepGoing_sweep_facts env hrng s hlt
    exact ⟨s', post, _, _, _, h1, hm, rfl, h2, h3, h5, h6, h7 hopen⟩
  · have hrng1 := demoEnv_rngInRange 1 (by decide)
    have hlt1 : hotSystem.numSweeps < hotSystem.endSweeps := by decide
    obtain ⟨s', post, h1, h2, h3, -, -, -, -, -, -, -, h7, -⟩ :=
      keepGoing_sweep_facts (demoEnv 1) hrng1 hotSystem hlt1
    obtain ⟨post', hpost, hgrid⟩ := hotSystem_sweep
    rw [h2] at hpost
    have hp : post = post' := Option.some.inj hpost
    subst hp
    have hm0 : meanSpin 1 hotSystem.grid = -1 := by
      rw [meanSpin_one]
      simp [hotSystem, demoSystem, demoSystemWith]
    have hm0' : meanSpin (demoEnv 1).gridSize hotSystem.grid = -1 := hm0
    refine ⟨s', post, h1, h2, h3, hm0, ?_, ?_⟩
    · rw [hgrid, meanSpin_one]
      simp [writeCell]
    · have h8 := h7 rfl
      rw [hm0'] at h8
      simpa [hotSystem, demoSystem, demoSystemWith] using h8

/-- Witness of C11: the first tick of `demoEnv 3` on `demoSystem`. -/
theorem keepGoing_record_before_sweep_witness :
    (RngInRange (demoEnv 3) ∧ demoSystem.numSweeps < demoSystem.endSweeps ∧
      (demoEnv 3).canOpen (runFile demoSystem.seed) = true) ∧
    (∃ (s' post sm : System Nat) (m : ℚ) (old : List CsvLine),
      keepGoing (demoEnv 3) demoSystem = some s' ∧
      magnetisation (demoEnv 3) demoSystem = some (m, sm) ∧
      m = meanSpin (demoEnv 3).gridSize demoSystem.grid ∧
      MCsweep (demoEnv 3) demoSystem = some post ∧
      s'.grid = post.grid ∧
      s'.numSweeps = demoSystem.numSweeps + 1 ∧
      s'.seed = demoSystem.seed ∧
      s'.files (runFile demoSystem.seed) =
        some (old ++ [CsvLine.row (demoSystem.numSweeps : ℚ) m demoSystem.seed])) ∧
    (∃ (s' post : System Nat),
      keepGoing (demoEnv 1) hotSystem = some s' ∧
      MCsweep (demoEnv 1) hotSystem = some post ∧
      s'.grid = post.grid ∧
      meanSpin 1 hotSystem.grid = -1 ∧
      meanSpin 1 post.grid = 1 ∧
      s'.files (runFile 7) =
        some [CsvLine.text "sweeps,magnetisation,seed", CsvLine.row 0 (-1) 7]) :=
  ⟨⟨demoEnv_rngInRange 3 (by decide), by decide, rfl⟩,
    keepGoing_record_before_sweep (demoEnv 3) (demoEnv_rngInRange 3 (by decide)) demoSystem
      (by decide) rfl⟩

/-! ## Ticks at the end of a run -/

/-- A tick with `numSweeps ≥ endSweeps`: it returns, touches neither the lattice nor
the generator nor the limits nor `numRuns`, and either starts the next run (runs
left: seed plus one, `numSweeps` back to `0`) or calls `pauseRunning`. -/
theorem keepGoing_boundary (env : Env R) (s : System R) (hge : ¬ s.numSweeps < s.endSweeps) :
    ∃ s' : System R, keepGoing env s = some s' ∧
      s'.grid = s.grid ∧ s'.rgen = s.rgen ∧
      s'.numRuns = s.numRuns ∧ s'.endRuns = s.endRuns ∧ s'.endSweeps = s.endSweeps ∧
      (s.numRuns < s.endRuns →
        s'.seed = wrapInt (s.seed + 1) ∧ s'.numSweeps = 0 ∧ s'.isActive = s.isActive) ∧
      (¬ s.numRuns < s.endRuns →
        s'.seed = s.seed ∧ s'.numSweeps = s.numSweeps ∧ s'.isActive = 0) := by
  unfold keepGoing csvHeaders pauseRunning
  by_cases h0 : s.numSweeps = 0
  · have hge0 : ¬ (0 : Int) < s.endSweeps := by rw [← h0]; exact hge
    rcases Bool.eq_false_or_eq_true
      (env.canOpen (getFileName "sweeps" "magnetisation" s.seed)) with ho | ho <;>
    by_cases hruns : s.numRuns < s.endRuns <;>
    simp only [h0, ho, if_true, hge0, if_false, hruns, Bool.false_eq_true, eq_self_iff_true] <;>
    exact ⟨_, rfl, rfl, rfl, rfl, rfl, rfl,
      fun h => by first | exact ⟨rfl, rfl, rfl⟩ | exact h.elim,
      fun h => by first | exact ⟨rfl, rfl, rfl⟩ | exact absurd trivial h⟩
  · by_cases hruns : s.numRuns < s.endRuns <;>
    simp only [h0, if_false, hge, hruns, if_true] <;>
    exact ⟨_, rfl, rfl, rfl, rfl, rfl, rfl,
      fun h => by first | exact ⟨rfl, rfl, rfl⟩ | exact h.elim,
      fun h => by first | exact ⟨rfl, rfl, rfl⟩ | exact absurd trivial h⟩

/-- Under the generator contract a tick keeps the run-state invariant. -/
theorem keepGoing_runInv (env : Env R) (hrng : RngInRange env) (s : System R)
    (hinv : RunInv s) : ∃ s' : System R, keepGoing env s = some s' ∧ RunInv s' := by
  obtain ⟨i1, i2, i3, i4⟩ := hinv
  by_cases hlt : s.numSweeps < s.endSweeps
  · obtain ⟨s', post, h1, -, -, -, g1, -, g3, g4, g5, -, -, -⟩ :=
      keepGoing_sweep_facts env hrng s hlt
    refine ⟨s', h1, ?_, ?_, ?_, ?_⟩
    · rw [g1]; omega
    · rw [g1, g4]; omega
    · rw [g3]; exact i3
    · rw [g3, g5]; exact i4
  · obtain ⟨s', h1, -, -, g3, g4, g5, g6, g7⟩ := keepGoing_boundary env s hlt
    refine ⟨s', h1, ?_, ?_, ?_, ?_⟩
    · by_cases hruns : s.numRuns < s.endRuns
      · rw [(g6 hruns).2.1]
      · rw [(g7 hruns).2.1]; exact i1
    · by_cases hruns : s.numRuns < s.endRuns
      · rw [(g6 hruns).2.1, g5]; omega
      · rw [(g7 hruns).2.1, g5]; exact i2
    · rw [g3]; exact i3
    · rw [g3, g4]; exact i4

/-- C12: the run-state invariant `0 ≤ numSweeps ≤ endSweeps`, `0 ≤ numRuns ≤ endRuns`
is kept by every tick, whatever the generator draws inside the grid; so it holds after
any number of ticks from a state with `numSweeps = 0`, `numRuns = 0` and positive
limits. -/
theorem runInv_preserved (env : Env R) (hrng : RngInRange env) :
    (∀ s : System R, RunInv s → ∃ s' : System R, keepGoing env s = some s' ∧ RunInv s') ∧
    (∀ s : System R, s.numSweeps = 0 → s.numRuns = 0 → 0 < s.endSweeps → 0 < s.endRuns →
      ∀ n : Nat, ∃ sn : System R, iterateM (keepGoing env) n s = some sn ∧
        0 ≤ sn.numSweeps ∧ sn.numSweeps ≤ sn.endSweeps ∧
        0 ≤ sn.numRuns ∧ sn.numRuns ≤ sn.endRuns) := by
  refine ⟨fun s hinv => keepGoing_runInv env hrng s hinv, fun s h1 h2 h3 h4 n => ?_⟩
  have hstart : RunInv s := ⟨by omega, by omega, by omega, by omega⟩
  have hall : ∃ sn : System R, iterateM (keepGoing env) n s = some sn ∧ RunInv sn := by
    induction n with
    | zero => exact ⟨s, rfl, hstart⟩
    | succ n ih =>
      obtain ⟨sn, hit, hinv⟩ := ih
      obtain ⟨s', hk, hinv'⟩ := keepGoing_runInv env hrng sn hinv
      exact ⟨s', by rw [iterateM_succ_last, hit, Option.some_bind, hk], hinv'⟩
  obtain ⟨sn, hit, i1, i2, i3, i4⟩ := hall
  exact ⟨sn, hit, i1, i2, i3, i4⟩

/-- Witness of C12: the generator of `demoEnv` on the 3 by 3 grid. -/
theorem runInv_preserved_witness :
    RngInRange (demoEnv 3) ∧
    (∀ s : System Nat, RunInv s → ∃ s' : System Nat, keepGoing (demoEnv 3) s = some s' ∧ RunInv s') ∧
    (∀ s : System Nat, s.numSweeps = 0 → s.numRuns = 0 → 0 < s.endSweeps → 0 < s.endRuns →
      ∀ n : Nat, ∃ sn : System Nat, iterateM (keepGoing (demoEnv 3)) n s = some sn ∧
        0 ≤ sn.numSweeps ∧ sn.numSweeps ≤ sn.endSweeps ∧
        0 ≤ sn.numRuns ∧ sn.numRuns ≤ sn.endRuns) :=
  ⟨demoEnv_rngInRange 3 (by decide),
    runInv_preserved (demoEnv 3) (demoEnv_rngInRange 3 (by decide))⟩

/-- C13 as stated fails when the seed is the largest `int`: the tick of
`lastSeedSystem` (seed 2147483647, `numSweeps = 10 = endSweeps`, `numRuns = 0 < 1`)
leaves the seed at `-2147483648`, which is not the seed plus one. -/
theorem keepGoing_run_boundary_overflow :
    (lastSeedSystem.numSweeps ≠ 0 ∧ lastSeedSystem.endSweeps ≤ lastSeedSystem.numSweeps ∧
      lastSeedSystem.numRuns < lastSeedSystem.endRuns) ∧
    ∃ s' : System Nat, keepGoing (demoEnv 3) lastSeedSystem = some s' ∧
      s'.seed = -2147483648 ∧ s'.seed ≠ lastSeedSystem.seed + 1 ∧ s'.numSweeps = 0 :=
  ⟨⟨by decide, by decide, by decide⟩, _,
    keepGoing_nextRun (demoEnv 3) lastSeedSystem (by decide) (by decide) (by decide),
    by decide, by decide, rfl⟩

/-- C13 as amended: a tick in a state with `numSweeps ≥ endSweeps`, `numSweeps ≠ 0`,
`numRuns < endRuns` and a seed (an `int`) below the largest `int`, 2147483647, adds one
to the seed, sets `numSweeps` to `0` and does nothing else: the lattice and the
generator are as before (no sweep), and so are the files and both output streams (no
record, no header). -/
theorem keepGoing_run_boundary (env : Env R) (s : System R) (h0 : s.numSweeps ≠ 0)
    (hge : s.endSweeps ≤ s.numSweeps) (hruns : s.numRuns < s.endRuns)
    (hint : -2147483648 ≤ s.seed) (hmax : s.seed < 2147483647) :
    ∃ s' : System R, keepGoing env s = some s' ∧
      s'.seed = s.seed + 1 ∧ s'.numSweeps = 0 ∧
      s' = { s with seed := s.seed + 1, numSweeps := 0 } ∧
      s'.grid = s.grid ∧ s'.rgen = s.rgen ∧
      s'.files = s.files ∧ s'.cout = s.cout ∧ s'.cerr = s.cerr ∧
      s'.numRuns = s.numRuns ∧ s'.isActive = s.isActive := by
  have hk := keepGoing_nextRun env s h0 (by omega) hruns
  rw [wrapInt_of_range (s.seed + 1) (by omega) (by omega)] at hk
  exact ⟨_, hk, rfl, rfl, rfl, rfl, rfl, rfl, rfl, rfl, rfl, rfl⟩

/-- Witness of the amended C13: `doneSystem`, whose `numSweeps` has reached
`endSweeps = 10` with `numRuns = 0 < 1 = endRuns` and whose seed is 7. -/
theorem keepGoing_run_boundary_witness :
    (doneSystem.numSweeps ≠ 0 ∧ doneSystem.endSweeps ≤ doneSystem.numSweeps ∧
      doneSystem.numRuns < doneSystem.endRuns ∧
      -2147483648 ≤ doneSystem.seed ∧ doneSystem.seed < 2147483647) ∧
    ∃ s' : System Nat, keepGoing (demoEnv 3) doneSystem = some s' ∧
      s'.seed = doneSystem.seed + 1 ∧ s'.numSweeps = 0 ∧
      s' = { doneSystem with seed := doneSystem.seed + 1, numSweeps := 0 } ∧
      s'.grid = doneSystem.grid ∧ s'.rgen = doneSystem.rgen ∧
      s'.files = doneSystem.files ∧ s'.cout = doneSystem.cout ∧ s'.cerr = doneSystem.cerr ∧
      s'.numRuns = doneSystem.numRuns ∧ s'.isActive = doneSystem.isActive :=
  ⟨⟨by decide, by decide, by decide, by decide, by decide⟩,
    keepGoing_run_boundary (demoEnv 3) doneSystem (by decide) (by decide) (by decide)
      (by decide) (by decide)⟩

/-! ## Runs without end -/

theorem iterateM_add {σ : Type} (f : σ → Option σ) (a b : Nat) (s : σ) :
    iterateM f (a + b) s = (iterateM f a s).bind (iterateM f b) := by
  induction a generalizing s with
  | zero => simp [iterateM]
  | succ n ih =>
    rw [show n + 1 + b = (n + b) + 1 by omega]
    simp only [iterateM]
    cases f s with
    | none => rfl
    | some t => simp only [Option.some_bind, ih]

/-- Under the generator contract a tick returns and keeps `numRuns` and `endRuns`; when
the state is not one that reaches the call of `pauseRunning`, it keeps `isActive` too. -/
theorem keepGoing_runs (env : Env R) (hrng : RngInRange env) (s : System R) :
    ∃ s' : System R, keepGoing env s = some s' ∧
      s'.numRuns = s.numRuns ∧ s'.endRuns = s.endRuns ∧
      (¬ ReachesPause s → s'.isActive = s.isActive) ∧
      (ReachesPause s → s'.isActive = 0) := by
  by_cases hlt : s.numSweeps < s.endSweeps
  · obtain ⟨s', post, h1, -, -, -, -, -, g3, -, g5, g6, -, -⟩ :=
      keepGoing_sweep_facts env hrng s hlt
    exact ⟨s', h1, g3, g5, fun _ => g6, fun h => absurd hlt h.1⟩
  · obtain ⟨s', h1, -, -, g3, g4, -, g6, g7⟩ := keepGoing_boundary env s hlt
    refine ⟨s', h1, g3, g4, fun h => ?_, fun h => (g7 h.2).2.2⟩
    by_cases hruns : s.numRuns < s.endRuns
    · exact (g6 hruns).2.2
    · exact absurd ⟨hlt, hruns⟩ h

/-- As long as the result fits an `int`, `r` executions of `seed += 1` add `r`. -/
theorem seed_iterate_of_fits (r : Nat) (x : Int) (h1 : -2147483648 ≤ x)
    (h2 : x + (r : Int) < 2147483648) :
    (fun y : Int => wrapInt (y + 1))^[r] x = x + (r : Int) := by
  induction r with
  | zero => simp
  | succ n ih =>
    rw [Function.iterate_succ_apply', ih (by push_cast at h2; omega)]
    rw [wrapInt_of_range _ (by omega) (by push_cast at h2; omega)]
    push_cast
    ring

/-- One whole run: from `numSweeps = 0` with runs left, `endSweeps` sweeping ticks and
one boundary tick lead to `numSweeps = 0` again, after one `seed += 1`. -/
theorem ticks_one_run (env : Env R) (hrng : RngInRange env) (s : System R)
    (hs0 : s.numSweeps = 0) (hE : 0 < s.endSweeps) (hruns : s.numRuns < s.endRuns) :
    ∃ s1 : System R, iterateM (keepGoing env) (s.endSweeps.toNat + 1) s = some s1 ∧
      s1.numSweeps = 0 ∧ s1.seed = wrapInt (s.seed + 1) ∧ s1.endSweeps = s.endSweeps ∧
      s1.numRuns = s.numRuns ∧ s1.endRuns = s.endRuns := by
  have hcast : ((s.endSweeps.toNat : Nat) : Int) = s.endSweeps :=
    Int.toNat_of_nonneg (by omega)
  obtain ⟨sk, m, hit, g1, g2, g3, g4, g5, -, -⟩ :=
    ticks_sweeping env hrng s hs0 s.endSweeps.toNat (by omega)
  have hnext := keepGoing_nextRun env sk (by rw [g1]; omega) (by rw [g1, g2]; omega)
    (by rw [g4, g5]; exact hruns)
  refine ⟨{ sk with seed := wrapInt (sk.seed + 1), numSweeps := 0 },
    by rw [iterateM_succ_last, hit, Option.some_bind, hnext], rfl, ?_, g2, g4, g5⟩
  show wrapInt (sk.seed + 1) = wrapInt (s.seed + 1)
  rw [g3]

/-- C20: a tick never changes `numRuns` or `endRuns`; so from a state with
`numRuns < endRuns` no number of ticks leads to a state that reaches the call of
`pauseRunning` (and `isActive` stays as it was): from `numSweeps = 0` the machine goes
through run after run, each of `endSweeps` sweeping ticks and one boundary tick that
executes `seed += 1` (after `r` runs the seed is the seed plus `r`, as long as that
fits an `int`). The call of `pauseRunning` is reached exactly from the states with
`numSweeps ≥ endSweeps` and `numRuns ≥ endRuns`. -/
theorem keepGoing_never_pauses (env : Env R) (hrng : RngInRange env) :
    (∀ s s' : System R, keepGoing env s = some s' →
      s'.numRuns = s.numRuns ∧ s'.endRuns = s.endRuns) ∧
    (∀ s : System R, s.numRuns < s.endRuns → ∀ n : Nat,
      ∃ sn : System R, iterateM (keepGoing env) n s = some sn ∧
        sn.numRuns < sn.endRuns ∧ ¬ ReachesPause sn ∧ sn.isActive = s.isActive) ∧
    (∀ s : System R, s.numSweeps = 0 → 0 < s.endSweeps → s.numRuns < s.endRuns →
      ∀ r : Nat, ∃ sr : System R,
        iterateM (keepGoing env) (r * (s.endSweeps.toNat + 1)) s = some sr ∧
        sr.numSweeps = 0 ∧ sr.seed = (fun y : Int => wrapInt (y + 1))^[r] s.seed ∧
        (-2147483648 ≤ s.seed → s.seed + (r : Int) < 2147483648 →
          sr.seed = s.seed + (r : Int)) ∧
        sr.endSweeps = s.endSweeps ∧
        sr.numRuns = s.numRuns ∧ sr.endRuns = s.endRuns) ∧
    (∀ s : System R, ReachesPause s →
      s.endSweeps ≤ s.numSweeps ∧ s.endRuns ≤ s.numRuns ∧
      ∃ s' : System R, keepGoing env s = some s' ∧ s'.isActive = 0) ∧
    (∀ s s' : System R, keepGoing env s = some s' → s'.isActive ≠ s.isActive →
      s.endSweeps ≤ s.numSweeps ∧ s.endRuns ≤ s.numRuns) := by
  refine ⟨fun s s' hk => ?_, fun s hruns n => ?_, fun s hs0 hE hruns r => ?_,
    fun s hp => ?_, fun s s' hk hne => ?_⟩
  · obtain ⟨t, ht, g1, g2, -, -⟩ := keepGoing_runs env hrng s
    rw [hk] at ht
    cases ht
    exact ⟨g1, g2⟩
  · induction n with
    | zero => exact ⟨s, rfl, hruns, fun h => h.2 hruns, rfl⟩
    | succ n ih =>
      obtain ⟨sn, hit, h1, h2, h3⟩ := ih
      obtain ⟨t, ht, g1, g2, g3, -⟩ := keepGoing_runs env hrng sn
      have hr : t.numRuns < t.endRuns := by rw [g1, g2]; exact h1
      exact ⟨t, by rw [iterateM_succ_last, hit, Option.some_bind, ht], hr,
        fun h => h.2 hr, by rw [g3 h2, h3]⟩
  · have hall : ∃ sr : System R,
        iterateM (keepGoing env) (r * (s.endSweeps.toNat + 1)) s = some sr ∧
        sr.numSweeps = 0 ∧ sr.seed = (fun y : Int => wrapInt (y + 1))^[r] s.seed ∧
        sr.endSweeps = s.endSweeps ∧ sr.numRuns = s.numRuns ∧ sr.endRuns = s.endRuns := by
      induction r with
      | zero => exact ⟨s, by simp [iterateM], hs0, rfl, rfl, rfl, rfl⟩
      | succ r ih =>
        obtain ⟨sr, hit, h1, h2, h3, h4, h5⟩ := ih
        obtain ⟨t, ht, g1, g2, g3, g4, g5⟩ := ticks_one_run env hrng sr h1
          (by rw [h3]; exact hE) (by rw [h4, h5]; exact hruns)
        rw [h3] at ht
        refine ⟨t, ?_, g1, ?_, by rw [g3, h3], by rw [g4, h4], by rw [g5, h5]⟩
        · rw [show (r + 1) * (s.endSweeps.toNat + 1) =
            r * (s.endSweeps.toNat + 1) + (s.endSweeps.toNat + 1) by ring,
            iterateM_add, hit, Option.some_bind, ht]
        · rw [g2, h2, Function.iterate_succ_apply']
    obtain ⟨sr, hit, h1, h2, h3, h4, h5⟩ := hall
    exact ⟨sr, hit, h1, h2, fun hlo hhi => by rw [h2, seed_iterate_of_fits r s.seed hlo hhi],
      h3, h4, h5⟩
  · obtain ⟨t, ht, -, -, -, g4⟩ := keepGoing_runs env hrng s
    exact ⟨by have := hp.1; omega, by have := hp.2; omega, t, ht, g4 hp⟩
  · obtain ⟨t, ht, -, -, g3, -⟩ := keepGoing_runs env hrng s
    rw [hk] at ht
    cases ht
    by_cases hp : ReachesPause s
    · exact ⟨by have := hp.1; omega, by have := hp.2; omega⟩
    · exact absurd (g3 hp) hne

/-- Witness of C20: the generator of `demoEnv` on the 3 by 3 grid. -/
theorem keepGoing_never_pauses_witness :
    RngInRange (demoEnv 3) ∧
    (∀ s s' : System Nat, keepGoing (demoEnv 3) s = some s' →
      s'.numRuns = s.numRuns ∧ s'.endRuns = s.endRuns) ∧
    (∀ s : System Nat, s.numRuns < s.endRuns → ∀ n : Nat,
      ∃ sn : System Nat, iterateM (keepGoing (demoEnv 3)) n s = some sn ∧
        sn.numRuns < sn.endRuns ∧ ¬ ReachesPause sn ∧ sn.isActive = s.isActive) ∧
    (∀ s : System Nat, s.numSweeps = 0 → 0 < s.endSweeps → s.numRuns < s.endRuns →
      ∀ r : Nat, ∃ sr : System Nat,
        iterateM (keepGoing (demoEnv 3)) (r * (s.endSweeps.toNat + 1)) s = some sr ∧
        sr.numSweeps = 0 ∧ sr.seed = (fun y : Int => wrapInt (y + 1))^[r] s.seed ∧
        (-2147483648 ≤ s.seed → s.seed + (r : Int) < 2147483648 →
          sr.seed = s.seed + (r : Int)) ∧
        sr.endSweeps = s.endSweeps ∧
        sr.numRuns = s.numRuns ∧ sr.endRuns = s.endRuns) ∧
    (∀ s : System Nat, ReachesPause s →
      s.endSweeps ≤ s.numSweeps ∧ s.endRuns ≤ s.numRuns ∧
      ∃ s' : System Nat, keepGoing (demoEnv 3) s = some s' ∧ s'.isActive = 0) ∧
    (∀ s s' : System Nat, keepGoing (demoEnv 3) s = some s' → s'.isActive ≠ s.isActive →
      s.endSweeps ≤ s.numSweeps ∧ s.endRuns ≤ s.numRuns) :=
  ⟨demoEnv_rngInRange 3 (by decide),
    keepGoing_never_pauses (demoEnv 3) (demoEnv_rngInRange 3 (by decide))⟩

/-! ## Zero-energy moves and the frame of one step -/

theorem demoEnv_exp_zero (gridSize : Int) : (demoEnv gridSize).exp 0 = 1 := by
  simp [demoEnv]

theorem hotSystem_drawnU : drawnU (demoEnv 3) hotSystem < 1 := by
  simp [drawnU, rgenAfterSite, demoEnv, hotSystem, demoSystem, demoSystemWith]
  norm_num

/-- C14: zero-energy moves are always accepted. When `exp(0) = 1` and the drawn `u` is
below `1`, an attempt whose `dE = 2 * computeLocalField(pos) * spin(pos)` is `0` flips
the drawn spin, through the second test `u < exp(-dE)` (so `random01` has been called);
and `dE` is `0` at every site when β is `0`. -/
theorem attemptSpinFlip_zero_energy (env : Env R) (s : System R) (hN : 1 ≤ env.gridSize)
    (hpos : inRange env.gridSize (drawnSite env s)) (hexp : env.exp 0 = 1)
    (hu : drawnU env s < 1) :
    ∃ hloc : ℚ,
      computeLocalField env.gridSize s.grid s.inverseTemperatureBeta (drawnSite env s) =
        some hloc ∧
      (2 * hloc * (siteSpin env s : ℚ) = 0 →
        ∃ s' : System R, attemptSpinFlip env s = some s' ∧
          NegatedAt s.grid s'.grid (drawnSite env s) ∧
          s'.rgen = (env.random01 (rgenAfterSite env s)).2) ∧
      (s.inverseTemperatureBeta = 0 → 2 * hloc * (siteSpin env s : ℚ) = 0) := by
  have heq := attemptSpinFlip_eq env s hN hpos
  have hE : energyChange env s =
      2 * localFieldSpec env.gridSize s.grid s.inverseTemperatureBeta (drawnSite env s) *
        (siteSpin env s : ℚ) := rfl
  rw [hE] at heq
  refine ⟨_, computeLocalField_spec _ _ _ _ hN hpos, fun h0 => ?_, fun hb => ?_⟩
  · rw [h0, if_neg (lt_irrefl 0), neg_zero, hexp, if_pos hu] at heq
    exact ⟨_, heq, negatedAt_writeCell _ _, rfl⟩
  · rw [localFieldSpec, hb]
    ring

/-- Witness of C14: the first attempt of `demoEnv 3` on `hotSystem` (β = 0). -/
theorem attemptSpinFlip_zero_energy_witness :
    (1 ≤ (demoEnv 3).gridSize ∧ inRange (demoEnv 3).gridSize (drawnSite (demoEnv 3) hotSystem) ∧
      (demoEnv 3).exp 0 = 1 ∧ drawnU (demoEnv 3) hotSystem < 1) ∧
    ∃ hloc : ℚ,
      computeLocalField (demoEnv 3).gridSize hotSystem.grid hotSystem.inverseTemperatureBeta (drawnSite (demoEnv 3) hotSystem) =
        some hloc ∧
      (2 * hloc * (siteSpin (demoEnv 3) hotSystem : ℚ) = 0 →
        ∃ s' : System Nat, attemptSpinFlip (demoEnv 3) hotSystem = some s' ∧
          NegatedAt hotSystem.grid s'.grid (drawnSite (demoEnv 3) hotSystem) ∧
          s'.rgen = ((demoEnv 3).random01 (rgenAfterSite (demoEnv 3) hotSystem)).2) ∧
      (hotSystem.inverseTemperatureBeta = 0 → 2 * hloc * (siteSpin (demoEnv 3) hotSystem : ℚ) = 0) :=
  ⟨⟨by decide, by decide, demoEnv_exp_zero 3, hotSystem_drawnU⟩,
    attemptSpinFlip_zero_energy (demoEnv 3) hotSystem (by decide) (by decide)
      (demoEnv_exp_zero 3) hotSystem_drawnU⟩

/-- Writing `val` into an allocated cell changes the sum of all spins by `val` minus
what the cell held. -/
theorem spinSum_writeCell (gridSize : Int) (grid : Grid) (pos : Pos) (val : Int)
    (hpos : inRange gridSize pos) :
    spinSum gridSize (writeCell grid pos val) =
      spinSum gridSize grid + (val - grid pos.1 pos.2) := by
  obtain ⟨h1, h2, h3, h4⟩ := hpos
  have hx : ((pos.1.toNat : Nat) : Int) = pos.1 := Int.toNat_of_nonneg h1
  have hy : ((pos.2.toNat : Nat) : Int) = pos.2 := Int.toNat_of_nonneg h3
  have hxm : pos.1.toNat ∈ Finset.range gridSize.toNat := Finset.mem_range.mpr (by omega)
  have hym : pos.2.toNat ∈ Finset.range gridSize.toNat := Finset.mem_range.mpr (by omega)
  have hcell : ∀ a b : Nat, writeCell grid pos val (a : Int) (b : Int) =
      grid (a : Int) (b : Int) +
        (if a = pos.1.toNat then (if b = pos.2.toNat then val - grid pos.1 pos.2 else 0)
          else 0) := by
    intro a b
    unfold writeCell
    by_cases ha : a = pos.1.toNat
    · by_cases hb : b = pos.2.toNat
      · subst ha hb
        rw [if_pos ⟨hx, hy⟩, if_pos rfl, if_pos rfl, hx, hy]
        ring
      · have hb' : ¬ ((b : Int) = pos.2) := fun h => hb (by omega)
        rw [if_neg (fun h => hb' h.2), if_pos ha, if_neg hb, add_zero]
    · have ha' : ¬ ((a : Int) = pos.1) := fun h => ha (by omega)
      rw [if_neg (fun h => ha' h.1), if_neg ha, add_zero]
  unfold spinSum
  simp only [hcell, Finset.sum_add_distrib]
  congr 1
  have hinner : ∀ a : Nat,
      (∑ b in Finset.range gridSize.toNat,
        (if a = pos.1.toNat then (if b = pos.2.toNat then val - grid pos.1 pos.2 else 0)
          else 0)) =
      (if a = pos.1.toNat then val - grid pos.1 pos.2 else 0) := by
    intro a
    by_cases ha : a = pos.1.toNat
    · simp only [if_pos ha]
      rw [Finset.sum_ite_eq' (Finset.range gridSize.toNat) pos.2.toNat, if_pos hym]
    · simp only [if_neg ha, Finset.sum_const_zero]
  simp only [hinner]
  rw [Finset.sum_ite_eq' (Finset.range gridSize.toNat) pos.1.toNat, if_pos hxm]

/-- C19: the frame of one Metropolis step. `attemptSpinFlip` changes at most the cell
at the drawn site, which it negates or leaves as is; every other cell, β, `numSweeps`,
`numRuns` and `seed` (everything but the lattice and the generator) are unchanged; so
the sum of all spins changes by `0`, `+2` or `-2` when the spins are in `{-1, +1}`. -/
theorem attemptSpinFlip_one_cell (env : Env R) (s : System R) (hN : 1 ≤ env.gridSize)
    (hpos : inRange env.gridSize (drawnSite env s)) :
    ∃ s' : System R, attemptSpinFlip env s = some s' ∧
      (s'.grid = s.grid ∨ NegatedAt s.grid s'.grid (drawnSite env s)) ∧
      (∀ i j : Int, (i, j) ≠ drawnSite env s → s'.grid i j = s.grid i j) ∧
      s'.inverseTemperatureBeta = s.inverseTemperatureBeta ∧
      s'.numSweeps = s.numSweeps ∧ s'.numRuns = s.numRuns ∧ s'.seed = s.seed ∧
      s' = { s with grid := s'.grid, rgen := s'.rgen } ∧
      (SpinsOk env.gridSize s.grid →
        spinSum env.gridSize s'.grid = spinSum env.gridSize s.grid ∨
        spinSum env.gridSize s'.grid = spinSum env.gridSize s.grid + 2 ∨
        spinSum env.gridSize s'.grid = spinSum env.gridSize s.grid - 2) := by
  have heq := attemptSpinFlip_eq env s hN hpos
  have hflip :
      (NegatedAt s.grid (writeCell s.grid (drawnSite env s) (-(siteSpin env s)))
        (drawnSite env s)) ∧
      (∀ i j : Int, (i, j) ≠ drawnSite env s →
        writeCell s.grid (drawnSite env s) (-(siteSpin env s)) i j = s.grid i j) ∧
      (SpinsOk env.gridSize s.grid →
        spinSum env.gridSize (writeCell s.grid (drawnSite env s) (-(siteSpin env s))) =
          spinSum env.gridSize s.grid ∨
        spinSum env.gridSize (writeCell s.grid (drawnSite env s) (-(siteSpin env s))) =
          spinSum env.gridSize s.grid + 2 ∨
        spinSum env.gridSize (writeCell s.grid (drawnSite env s) (-(siteSpin env s))) =
          spinSum env.gridSize s.grid - 2) := by
    refine ⟨negatedAt_writeCell _ _, fun i j h => writeCell_other _ _ _ i j h, fun hok => ?_⟩
    rw [spinSum_writeCell _ _ _ _ hpos]
    have hcell : s.grid (drawnSite env s).1 (drawnSite env s).2 = -1 ∨
        s.grid (drawnSite env s).1 (drawnSite env s).2 = 1 := hok _ _ hpos
    unfold siteSpin
    rcases hcell with h | h
    · right; left
      rw [h]
      ring
    · right; right
      rw [h]
      ring
  by_cases h1 : energyChange env s < 0
  · rw [if_pos h1] at heq
    obtain ⟨f1, f2, f3⟩ := hflip
    exact ⟨_, heq, Or.inr f1, f2, rfl, rfl, rfl, rfl, rfl, f3⟩
  · rw [if_neg h1] at heq
    by_cases h2 : drawnU env s < env.exp (-(energyChange env s))
    · rw [if_pos h2] at heq
      obtain ⟨f1, f2, f3⟩ := hflip
      exact ⟨_, heq, Or.inr f1, f2, rfl, rfl, rfl, rfl, rfl, f3⟩
    · rw [if_neg h2] at heq
      exact ⟨_, heq, Or.inl rfl, fun _ _ _ => rfl, rfl, rfl, rfl, rfl, rfl,
        fun _ => Or.inl rfl⟩

/-- Witness of C19: the first attempt of `demoEnv 3` on `demoSystem`. -/
theorem attemptSpinFlip_one_cell_witness :
    (1 ≤ (demoEnv 3).gridSize ∧ inRange (demoEnv 3).gridSize (drawnSite (demoEnv 3) demoSystem)) ∧
    ∃ s' : System Nat, attemptSpinFlip (demoEnv 3) demoSystem = some s' ∧
      (s'.grid = demoSystem.grid ∨ NegatedAt demoSystem.grid s'.grid (drawnSite (demoEnv 3) demoSystem)) ∧
      (∀ i j : Int, (i, j) ≠ drawnSite (demoEnv 3) demoSystem → s'.grid i j = demoSystem.grid i j) ∧
      s'.inverseTemperatureBeta = demoSystem.inverseTemperatureBeta ∧
      s'.numSweeps = demoSystem.numSweeps ∧ s'.numRuns = demoSystem.numRuns ∧ s'.seed = demoSystem.seed ∧
      s' = { demoSystem with grid := s'.grid, rgen := s'.rgen } ∧
      (SpinsOk (demoEnv 3).gridSize demoSystem.grid →
        spinSum (demoEnv 3).gridSize s'.grid = spinSum (demoEnv 3).gridSize demoSystem.grid ∨
        spinSum (demoEnv 3).gridSize s'.grid = spinSum (demoEnv 3).gridSize demoSystem.grid + 2 ∨
        spinSum (demoEnv 3).gridSize s'.grid = spinSum (demoEnv 3).gridSize demoSystem.grid - 2) :=
  ⟨⟨by decide, by decide⟩,
    attemptSpinFlip_one_cell (demoEnv 3) demoSystem (by decide) (by decide)⟩

/-! ## Accesses stay inside the grid -/

/-- C15: no out-of-range grid access. Every access to the grid is a checked lookup
that returns `none` exactly when a component of the position is outside `[0, N)`, and an
operation returns `none` as soon as one of its accesses does. For `N ≥ 1` and a generator
whose `randomInt(N)` is always in `[0, N)`, `Reset`, `computeLocalField` (at an in-range
position), `attemptSpinFlip`, `MCsweep` and `magnetisation` all return a result, so none
of their accesses is out of range; and `setPosNeighbour` maps an in-range position and
a direction in `0..3` to an in-range position. -/
theorem no_out_of_range_access (env : Env R) (setTemperature : ℚ → System R → System R)
    (hN : 1 ≤ env.gridSize) (hrng : RngInRange env) :
    (∀ (pos setpos : Pos) (d : Int), inRange env.gridSize pos → 0 ≤ d → d < 4 →
      inRange env.gridSize (setPosNeighbour env.gridSize setpos pos d)) ∧
    (∀ s : System R, ∃ s' : System R, Reset env setTemperature s = some s') ∧
    (∀ (grid : Grid) (beta : ℚ) (pos : Pos), inRange env.gridSize pos →
      ∃ hloc : ℚ, computeLocalField env.gridSize grid beta pos = some hloc) ∧
    (∀ s : System R, ∃ s' : System R, attemptSpinFlip env s = some s') ∧
    (∀ s : System R, ∃ s' : System R, MCsweep env s = some s') ∧
    (∀ s : System R, ∃ r : ℚ × System R, magnetisation env s = some r) ∧
    (∀ (grid : Grid) (pos : Pos) (val : Int), ¬ inRange env.gridSize pos →
      readGrid env.gridSize grid pos = none ∧ setGrid env.gridSize grid pos val = none ∧
      flipSpin env.gridSize grid pos = none) ∧
    (∀ (grid : Grid) (pos : Pos) (val : Int), inRange env.gridSize pos →
      readGrid env.gridSize grid pos ≠ none ∧ setGrid env.gridSize grid pos val ≠ none ∧
      flipSpin env.gridSize grid pos ≠ none) := by
  refine ⟨fun pos setpos d hpos hd0 hd4 =>
      setPosNeighbour_inRange env.gridSize setpos pos d hN hpos ⟨hd0, hd4⟩,
    fun s => ?_, fun grid beta pos hpos => ⟨_, computeLocalField_spec _ grid beta pos hN hpos⟩,
    fun s => ?_, fun s => ?_, fun s => ?_, fun grid pos val hpos => ?_,
    fun grid pos val hpos => ?_⟩
  · obtain ⟨s', h, -⟩ := reset_spec env setTemperature s (by omega)
    exact ⟨s', h⟩
  · obtain ⟨s', h, -⟩ := attemptSpinFlip_total env hrng s
    exact ⟨s', h⟩
  · obtain ⟨s', h, -⟩ := MCsweep_total env hrng s
    exact ⟨s', h⟩
  · obtain ⟨d, h⟩ := magnetisation_eq env s (by omega)
    exact ⟨_, h⟩
  · simp [readGrid, setGrid, flipSpin, hpos]
  · simp [readGrid, setGrid, flipSpin, hpos]

/-- Witness of C15: the generator of `demoEnv` on the 3 by 3 grid. -/
theorem no_out_of_range_access_witness :
    (1 ≤ (demoEnv 3).gridSize ∧ RngInRange (demoEnv 3)) ∧
    (∀ (pos setpos : Pos) (d : Int), inRange (demoEnv 3).gridSize pos → 0 ≤ d → d < 4 →
      inRange (demoEnv 3).gridSize (setPosNeighbour (demoEnv 3).gridSize setpos pos d)) ∧
    (∀ s : System Nat, ∃ s' : System Nat, Reset (demoEnv 3) demoSetTemperature s = some s') ∧
    (∀ (grid : Grid) (beta : ℚ) (pos : Pos), inRange (demoEnv 3).gridSize pos →
      ∃ hloc : ℚ, computeLocalField (demoEnv 3).gridSize grid beta pos = some hloc) ∧
    (∀ s : System Nat, ∃ s' : System Nat, attemptSpinFlip (demoEnv 3) s = some s') ∧
    (∀ s : System Nat, ∃ s' : System Nat, MCsweep (demoEnv 3) s = some s') ∧
    (∀ s : System Nat, ∃ r : ℚ × System Nat, magnetisation (demoEnv 3) s = some r) ∧
    (∀ (grid : Grid) (pos : Pos) (val : Int), ¬ inRange (demoEnv 3).gridSize pos →
      readGrid (demoEnv 3).gridSize grid pos = none ∧ setGrid (demoEnv 3).gridSize grid pos val = none ∧
      flipSpin (demoEnv 3).gridSize grid pos = none) ∧
    (∀ (grid : Grid) (pos : Pos) (val : Int), inRange (demoEnv 3).gridSize pos →
      readGrid (demoEnv 3).gridSize grid pos ≠ none ∧ setGrid (demoEnv 3).gridSize grid pos val ≠ none ∧
      flipSpin (demoEnv 3).gridSize grid pos ≠ none) :=
  ⟨⟨by decide, demoEnv_rngInRange 3 (by decide)⟩,
    no_out_of_range_access (demoEnv 3) demoSetTemperature (by decide)
      (demoEnv_rngInRange 3 (by decide))⟩

/-! ## The CSV file of a run -/

theorem runFile_eq (seed : Int) :
    runFile seed = "data/file_magnetisation" ++ toString seed ++ ".csv" := by
  have h : ("data/file_" ++ "magnetisation" : String) = "data/file_magnetisation" := by decide
  unfold runFile getFileName
  rw [h]

theorem runFile_seven : runFile 7 = "data/file_magnetisation7.csv" := by
  decide

/-- The files after a tick with `numSweeps ≥ endSweeps`: nothing goes to `cerr`, and the
files are as before unless `numSweeps` is `0` and the run's file can be opened, in which
case that file holds the header line and nothing else. -/
theorem keepGoing_boundary_files (env : Env R) (s : System R)
    (hge : ¬ s.numSweeps < s.endSweeps) :
    ∃ s' : System R, keepGoing env s = some s' ∧ s'.cerr = s.cerr ∧
      (s.numSweeps = 0 → s'.fileName = runFile s.seed) ∧
      s'.files =
        (if s.numSweeps = 0 ∧ env.canOpen (runFile s.seed) = true then
          fun name =>
            if name = runFile s.seed then some [CsvLine.text "sweeps,magnetisation,seed"]
            else s.files name
        else s.files) := by
  have hhdr : ("sweeps" ++ "," ++ "magnetisation" ++ "," ++ "seed" : String) =
      "sweeps,magnetisation,seed" := by decide
  unfold keepGoing csvHeaders pauseRunning
  by_cases h0 : s.numSweeps = 0
  · have hge0 : ¬ (0 : Int) < s.endSweeps := by rw [← h0]; exact hge
    rcases Bool.eq_false_or_eq_true
      (env.canOpen (getFileName "sweeps" "magnetisation" s.seed)) with ho | ho <;>
    by_cases hruns : s.numRuns < s.endRuns <;>
    simp only [h0, ho, if_true, hge0, if_false, hruns, Bool.false_eq_true, eq_self_iff_true,
      runFile, hhdr, and_self, and_false] <;>
    exact ⟨_, rfl, rfl, fun _ => rfl, rfl⟩
  · by_cases hruns : s.numRuns < s.endRuns <;>
    simp only [h0, if_false, hge, hruns, if_true, false_and] <;>
    exact ⟨_, rfl, rfl, fun h => h.elim, rfl⟩

/-- The first tick of a run (`numSweeps = 0`) whose file can be opened: the file holds
the header line first, followed by at most the row of this tick, whatever it held
before. -/
theorem keepGoing_fresh_file (env : Env R) (hrng : RngInRange env) (s : System R)
    (h0 : s.numSweeps = 0) (hopen : env.canOpen (runFile s.seed) = true) :
    ∃ s' : System R, keepGoing env s = some s' ∧ s'.fileName = runFile s.seed ∧
      (0 < s.endSweeps →
        s'.files (runFile s.seed) =
          some [CsvLine.text "sweeps,magnetisation,seed",
            CsvLine.row 0 (meanSpin env.gridSize s.grid) s.seed]) ∧
      (¬ 0 < s.endSweeps →
        s'.files (runFile s.seed) = some [CsvLine.text "sweeps,magnetisation,seed"]) := by
  by_cases hlt : s.numSweeps < s.endSweeps
  · have hE : 0 < s.endSweeps := by rw [← h0]; exact hlt
    obtain ⟨post, d, -, hk⟩ := keepGoing_sweep env hrng s hlt
    refine ⟨_, hk, rfl, fun _ => ?_, fun h => absurd hE h⟩
    simp only [hopen, if_true, h0, Int.cast_zero]
    rfl
  · have hE : ¬ 0 < s.endSweeps := by rw [← h0]; exact hlt
    obtain ⟨s', hk, -, hn, hf⟩ := keepGoing_boundary_files env s hlt
    have hname := hn h0
    refine ⟨s', hk, hname, fun h => absurd h hE, fun _ => ?_⟩
    rw [hf, if_pos ⟨h0, hopen⟩]
    simp only [if_true]

/-- C16: the path `getFileName` returns is `data/file_` followed by the dependent
variable's name, the decimal seed and `.csv`, whatever the independent variable's name;
for `keepGoing` it is `data/file_magnetisation<seed>.csv`. In a tick with
`numSweeps = 0` (the file being openable) `csvHeaders` leaves in that file the single
line `sweeps,magnetisation,seed`, whatever the file held, and after the tick the file
is that line followed by the tick's row, if the tick sweeps. For seed 7 the path is
`data/file_magnetisation7.csv` and every row of the run carries the seed 7. -/
theorem csvHeaders_fresh_run (env : Env R) (hrng : RngInRange env) (s : System R)
    (h0 : s.numSweeps = 0) (hopen : env.canOpen (runFile s.seed) = true) :
    (∀ (indVar indVar' depVar : String) (seed : Int),
      getFileName indVar depVar seed = "data/file_" ++ depVar ++ toString seed ++ ".csv" ∧
      getFileName indVar depVar seed = getFileName indVar' depVar seed) ∧
    runFile s.seed = "data/file_magnetisation" ++ toString s.seed ++ ".csv" ∧
    (csvHeaders env s "sweeps" "magnetisation" s.seed).files (runFile s.seed) =
      some [CsvLine.text "sweeps,magnetisation,seed"] ∧
    (∃ s' : System R, keepGoing env s = some s' ∧
      (0 < s.endSweeps →
        s'.files (runFile s.seed) =
          some [CsvLine.text "sweeps,magnetisation,seed",
            CsvLine.row 0 (meanSpin env.gridSize s.grid) s.seed]) ∧
      (¬ 0 < s.endSweeps →
        s'.files (runFile s.seed) = some [CsvLine.text "sweeps,magnetisation,seed"])) ∧
    runFile 7 = "data/file_magnetisation7.csv" ∧
    (s.seed = 7 → ∀ k : Nat, 1 ≤ k → (k : Int) ≤ s.endSweeps →
      ∃ (sk : System R) (m : Nat → ℚ), iterateM (keepGoing env) k s = some sk ∧
        sk.files "data/file_magnetisation7.csv" =
          some (CsvLine.text "sweeps,magnetisation,seed" ::
            (List.range k).map (fun j : Nat => CsvLine.row (j : ℚ) (m j) 7))) := by
  have hhdr : ("sweeps" ++ "," ++ "magnetisation" ++ "," ++ "seed" : String) =
      "sweeps,magnetisation,seed" := by decide
  have hopen' : env.canOpen (getFileName "sweeps" "magnetisation" s.seed) = true := hopen
  refine ⟨fun _ _ _ _ => ⟨rfl, rfl⟩, runFile_eq s.seed, ?_, ?_, runFile_seven,
    fun h7 k hk1 hkE => ?_⟩
  · unfold csvHeaders
    simp only [hopen', if_true, hhdr, runFile]
  · obtain ⟨s', hk, -, h1, h2⟩ := keepGoing_fresh_file env hrng s h0 hopen
    exact ⟨s', hk, h1, h2⟩
  · obtain ⟨sk, m, hit, -, -, -, -, -, -, hf⟩ := ticks_sweeping env hrng s h0 k hkE
    have hfile := hf hopen hk1
    rw [h7, runFile_seven] at hfile
    exact ⟨sk, m, hit, hfile⟩

/-- Witness of C16: the first tick of `demoEnv 3` on `demoSystem` (seed 7). -/
theorem csvHeaders_fresh_run_witness :
    (RngInRange (demoEnv 3) ∧ demoSystem.numSweeps = 0 ∧
      (demoEnv 3).canOpen (runFile demoSystem.seed) = true) ∧
    (∀ (indVar indVar' depVar : String) (seed : Int),
      getFileName indVar depVar seed = "data/file_" ++ depVar ++ toString seed ++ ".csv" ∧
      getFileName indVar depVar seed = getFileName indVar' depVar seed) ∧
    runFile demoSystem.seed = "data/file_magnetisation" ++ toString demoSystem.seed ++ ".csv" ∧
    (csvHeaders (demoEnv 3) demoSystem "sweeps" "magnetisation" demoSystem.seed).files (runFile demoSystem.seed) =
      some [CsvLine.text "sweeps,magnetisation,seed"] ∧
    (∃ s' : System Nat, keepGoing (demoEnv 3) demoSystem = some s' ∧
      (0 < demoSystem.endSweeps →
        s'.files (runFile demoSystem.seed) =
          some [CsvLine.text "sweeps,magnetisation,seed",
            CsvLine.row 0 (meanSpin (demoEnv 3).gridSize demoSystem.grid) demoSystem.seed]) ∧
      (¬ 0 < demoSystem.endSweeps →
        s'.files (runFile demoSystem.seed) = some [CsvLine.text "sweeps,magnetisation,seed"])) ∧
    runFile 7 = "data/file_magnetisation7.csv" ∧
    (demoSystem.seed = 7 → ∀ k : Nat, 1 ≤ k → (k : Int) ≤ demoSystem.endSweeps →
      ∃ (sk : System Nat) (m : Nat → ℚ), iterateM (keepGoing (demoEnv 3)) k demoSystem = some sk ∧
        sk.files "data/file_magnetisation7.csv" =
          some (CsvLine.text "sweeps,magnetisation,seed" ::
            (List.range k).map (fun j : Nat => CsvLine.row (j : ℚ) (m j) 7))) :=
  ⟨⟨demoEnv_rngInRange 3 (by decide), rfl, rfl⟩,
    csvHeaders_fresh_run (demoEnv 3) (demoEnv_rngInRange 3 (by decide)) demoSystem rfl rfl⟩

/-- C17 as stated fails: after the first tick of the run of `demoSystem` (seed 7) the
file `data/file_magnetisation7.csv` starts with the line `sweeps,magnetisation,seed`,
not with `sweepIndex,magnetisation,seed`. -/
theorem header_is_not_sweepIndex :
    ∃ s' : System Nat, keepGoing (demoEnv 3) demoSystem = some s' ∧
      (∃ rest : List CsvLine, s'.files "data/file_magnetisation7.csv" =
        some (CsvLine.text "sweeps,magnetisation,seed" :: rest)) ∧
      ¬ ∃ rest : List CsvLine, s'.files "data/file_magnetisation7.csv" =
        some (CsvLine.text "sweepIndex,magnetisation,seed" :: rest) := by
  obtain ⟨s', hk, -, h1, -⟩ := keepGoing_fresh_file (demoEnv 3)
    (demoEnv_rngInRange 3 (by decide)) demoSystem rfl rfl
  have hf := h1 (by decide)
  have hpath : runFile demoSystem.seed = "data/file_magnetisation7.csv" := runFile_seven
  rw [hpath] at hf
  refine ⟨s', hk, ⟨_, hf⟩, ?_⟩
  rintro ⟨rest, hrest⟩
  rw [hf] at hrest
  have hhead := (List.cons.inj (Option.some.inj hrest)).1
  exact absurd hhead (by decide)

/-- C17 as amended: in the first tick of a run (`numSweeps = 0`, the file being
openable) the file `data/file_magnetisation<seed>.csv` receives as its first line the
header `sweeps,magnetisation,seed`, and that path is the one `keepGoing` keeps as the
run's file name. -/
theorem header_line_at_run_start (env : Env R) (hrng : RngInRange env) (s : System R)
    (h0 : s.numSweeps = 0) (hopen : env.canOpen (runFile s.seed) = true) :
    ∃ (s' : System R) (rest : List CsvLine), keepGoing env s = some s' ∧
      s'.files ("data/file_magnetisation" ++ toString s.seed ++ ".csv") =
        some (CsvLine.text "sweeps,magnetisation,seed" :: rest) ∧
      runFile s.seed = "data/file_magnetisation" ++ toString s.seed ++ ".csv" ∧
      s'.fileName = "data/file_magnetisation" ++ toString s.seed ++ ".csv" := by
  obtain ⟨s', hk, hname, h1, h2⟩ := keepGoing_fresh_file env hrng s h0 hopen
  rw [runFile_eq] at hname h1 h2
  by_cases hE : 0 < s.endSweeps
  · exact ⟨s', _, hk, h1 hE, runFile_eq s.seed, hname⟩
  · exact ⟨s', _, hk, h2 hE, runFile_eq s.seed, hname⟩

/-- Witness of the amended C17: the first tick of `demoEnv 3` on `demoSystem`. -/
theorem header_line_at_run_start_witness :
    (RngInRange (demoEnv 3) ∧ demoSystem.numSweeps = 0 ∧
      (demoEnv 3).canOpen (runFile demoSystem.seed) = true) ∧
    ∃ (s' : System Nat) (rest : List CsvLine), keepGoing (demoEnv 3) demoSystem = some s' ∧
      s'.files ("data/file_magnetisation" ++ toString demoSystem.seed ++ ".csv") =
        some (CsvLine.text "sweeps,magnetisation,seed" :: rest) ∧
      runFile demoSystem.seed = "data/file_magnetisation" ++ toString demoSystem.seed ++ ".csv" ∧
      s'.fileName = "data/file_magnetisation" ++ toString demoSystem.seed ++ ".csv" :=
  ⟨⟨demoEnv_rngInRange 3 (by decide), rfl, rfl⟩,
    header_line_at_run_start (demoEnv 3) (demoEnv_rngInRange 3 (by decide)) demoSystem
      rfl rfl⟩

/-! ## A sink that cannot be opened -/

/-- C18: a sink that cannot be opened is not fatal. The same tick in the same state,
once with any sink and once with a sink that fails to open the run's file, returns in
both cases with the same lattice, generator, `numSweeps`, `numRuns`, seed, limits and
`isActive`; with the failing sink no file is created or changed (the record is dropped)
and a sweeping tick sends the error message to `cerr`, while a working sink has the
record appended. -/
theorem sink_failure_nonfatal (env : Env R) (hrng : RngInRange env) (s : System R)
    (c : String → Bool) (hc : c (runFile s.seed) = false) :
    ∃ s1 s2 : System R,
      keepGoing env s = some s1 ∧
      keepGoing { env with canOpen := c } s = some s2 ∧
      s2.grid = s1.grid ∧ s2.rgen = s1.rgen ∧
      s2.numSweeps = s1.numSweeps ∧ s2.numRuns = s1.numRuns ∧ s2.seed = s1.seed ∧
      s2.endSweeps = s1.endSweeps ∧ s2.endRuns = s1.endRuns ∧ s2.isActive = s1.isActive ∧
      s2.files = s.files ∧
      (s.numSweeps < s.endSweeps →
        s2.cerr = s.cerr ++ ["Error: Unable to open the file for writing."]) ∧
      (s.numSweeps < s.endSweeps → env.canOpen (runFile s.seed) = true →
        ∃ old : List CsvLine, s1.files (runFile s.seed) =
          some (old ++ [CsvLine.row (s.numSweeps : ℚ) (meanSpin env.gridSize s.grid)
            s.seed])) := by
  have hrng' : RngInRange { env with canOpen := c } := fun r => hrng r
  have hsame : MCsweep { env with canOpen := c } s = MCsweep env s := rfl
  by_cases hlt : s.numSweeps < s.endSweeps
  · obtain ⟨s1, post, h1, h2, h3, h4, h5, h6, h7, h8, h9, h10, h11, -⟩ :=
      keepGoing_sweep_facts env hrng s hlt
    obtain ⟨post', d', hp', hk'⟩ := keepGoing_sweep { env with canOpen := c } hrng' s hlt
    rw [hsame, h2] at hp'
    have hpp : post = post' := Option.some.inj hp'
    subst hpp
    refine ⟨s1, _, h1, hk', h3.symm, h4.symm, h5.symm, h7.symm, h6.symm, h8.symm, h9.symm,
      h10.symm, ?_, fun _ => ?_, fun _ ho => ⟨_, h11 ho⟩⟩
    · show (if c (runFile s.seed) = true then _ else s.files) = s.files
      rw [if_neg (by rw [hc]; exact Bool.false_ne_true)]
    · show (if c (runFile s.seed) = true then s.cerr else _) = _
      rw [if_neg (by rw [hc]; exact Bool.false_ne_true)]
  · obtain ⟨s1, h1, a1, a2, a3, a4, a5, a6, a7⟩ := keepGoing_boundary env s hlt
    obtain ⟨s2, k1, b1, b2, b3, b4, b5, b6, b7⟩ :=
      keepGoing_boundary { env with canOpen := c } s hlt
    obtain ⟨s2', k2, -, -, hf⟩ := keepGoing_boundary_files { env with canOpen := c } s hlt
    rw [k1] at k2
    have hss : s2 = s2' := Option.some.inj k2
    subst hss
    have hc' : ({ env with canOpen := c } : Env R).canOpen (runFile s.seed) = false := hc
    have hfiles : s2.files = s.files := by
      rw [hf, if_neg]
      rintro ⟨-, h⟩
      rw [hc'] at h
      exact absurd h (by decide)
    refine ⟨s1, s2, h1, k1, by rw [a1, b1], by rw [a2, b2], ?_, by rw [a3, b3], ?_,
      by rw [a5, b5], by rw [a4, b4], ?_, hfiles, fun h => absurd h hlt,
      fun h => absurd h hlt⟩
    · by_cases hruns : s.numRuns < s.endRuns
      · rw [(a6 hruns).2.1, (b6 hruns).2.1]
      · rw [(a7 hruns).2.1, (b7 hruns).2.1]
    · by_cases hruns : s.numRuns < s.endRuns
      · rw [(a6 hruns).1, (b6 hruns).1]
      · rw [(a7 hruns).1, (b7 hruns).1]
    · by_cases hruns : s.numRuns < s.endRuns
      · rw [(a6 hruns).2.2, (b6 hruns).2.2]
      · rw [(a7 hruns).2.2, (b7 hruns).2.2]

/-- Witness of C18: the first tick of `demoEnv 3` on `demoSystem`, against the same
tick with a sink that never opens. -/
theorem sink_failure_nonfatal_witness :
    (RngInRange (demoEnv 3) ∧ (fun _ : String => false) (runFile demoSystem.seed) = false) ∧
    ∃ s1 s2 : System Nat,
      keepGoing (demoEnv 3) demoSystem = some s1 ∧
      keepGoing { (demoEnv 3) with canOpen := (fun _ => false) } demoSystem = some s2 ∧
      s2.grid = s1.grid ∧ s2.rgen = s1.rgen ∧
      s2.numSweeps = s1.numSweeps ∧ s2.numRuns = s1.numRuns ∧ s2.seed = s1.seed ∧
      s2.endSweeps = s1.endSweeps ∧ s2.endRuns = s1.endRuns ∧ s2.isActive = s1.isActive ∧
      s2.files = demoSystem.files ∧
      (demoSystem.numSweeps < demoSystem.endSweeps →
        s2.cerr = demoSystem.cerr ++ ["Error: Unable to open the file for writing."]) ∧
      (demoSystem.numSweeps < demoSystem.endSweeps → (demoEnv 3).canOpen (runFile demoSystem.seed) = true →
        ∃ old : List CsvLine, s1.files (runFile demoSystem.seed) =
          some (old ++ [CsvLine.row (demoSystem.numSweeps : ℚ) (meanSpin (demoEnv 3).gridSize demoSystem.grid)
            demoSystem.seed])) :=
  ⟨⟨demoEnv_rngInRange 3 (by decide), rfl⟩,
    sink_failure_nonfatal (demoEnv 3) (demoEnv_rngInRange 3 (by decide)) demoSystem
      (fun _ => false) rfl⟩

end IsingSystem
